import Mathlib

/-!
Verification of the table-use-case repository's query engine and
filter-state synchronizer against its specification.

The repository's core logic (fetchTasks in `src/api/task.ts`, fetchUsers,
cleanEmptyParams, and the `setFilters` merge of `useFilters.ts`) is embedded
shallowly below: JavaScript runtime values are modelled by the inductive
`JsValue`, records by Lean structures, and the dynamic-typed filter loops by
total Lean functions that mirror the source branch for branch.

Modelling conventions (stated once here, referenced by the definitions):
* JS numbers occurring in this code are integers (record ids, page indices,
  millisecond timestamps), so they are modelled by `Int`, with a separate
  `JsValue.nan` constructor for `NaN`.
* `===` on arrays and `Date` objects is reference identity in JS; two
  distinct records always hold distinct array / `Date` objects, so the
  embedding makes strict equality on those constructors `false`.
* `Array.prototype.sort` is modelled by `List.mergeSort` with the
  predicate `comparator a b ≤ 0`. ECMAScript mandates a stable order only
  for consistent comparison functions; the comparator here is consistent
  exactly on number- and string-valued sort fields (for array/`Date`
  fields `===` is reference identity, so equal-content values compare `-1`
  in both directions and the real order is implementation-defined). The
  model therefore fixes one admissible order everywhere, and the order
  theorems below are stated only for the consistent (scalar) cases.
* JS `ToNumber` on strings follows the `StringNumericLiteral` grammar
  (radix literals, decimal forms with dots and exponents), evaluated
  exactly; a string whose value is not an integer is mapped to `none`
  alongside `NaN`, which no integer record field can `===`-equal, and
  IEEE-754 rounding of over-long literals is out of scope.
-/

namespace TableUseCase

/-- JS runtime values as they occur in the query/filter state of this
repository: `undefined`, the number `NaN`, integer numbers, strings,
arrays of strings (tag sets), and `Date` objects carrying their
millisecond-since-epoch timestamp. -/
inductive JsValue where
  | undefined
  | nan
  | num (n : Int)
  | str (s : String)
  | arr (vs : List String)
  | date (t : Int)
deriving DecidableEq, Repr

/-- Value of one digit of the given radix (decimal digits, and letters up
to `f`/`F` for hexadecimal), `none` for any other character. -/
def radixDigitVal (radix : Nat) (c : Char) : Option Nat :=
  let v :=
    if c.isDigit then some (c.toNat - 48)
    else if 'a' ≤ c ∧ c ≤ 'f' then some (c.toNat - 87)
    else if 'A' ≤ c ∧ c ≤ 'F' then some (c.toNat - 55)
    else none
  match v with
  | some d => if d < radix then some d else none
  | none => none

/-- A nonempty run of digits of the given radix, as a natural number
(`none` when empty or containing a foreign character). -/
def parseRadixRun (radix : Nat) (cs : List Char) : Option Nat :=
  if cs.isEmpty then none
  else
    cs.foldl
      (fun acc c =>
        match acc, radixDigitVal radix c with
        | some a, some d => some (a * radix + d)
        | _, _ => none)
      (some 0)

/-- Splits a character list at the first `'e'`/`'E'` (mantissa, exponent
characters), `none` when there is no exponent marker. -/
def splitExponent : List Char → List Char × Option (List Char)
  | [] => ([], none)
  | c :: cs =>
    if c = 'e' ∨ c = 'E' then ([], some cs)
    else
      let r := splitExponent cs
      (c :: r.1, r.2)

/-- Splits a character list at the first `'.'` (integer part, fractional
characters), `none` when there is no dot. -/
def splitDot : List Char → List Char × Option (List Char)
  | [] => ([], none)
  | c :: cs =>
    if c = '.' then ([], some cs)
    else
      let r := splitDot cs
      (c :: r.1, r.2)

/-- An optionally signed nonempty decimal digit run (the exponent part of
a numeric literal). -/
def parseSignedDigits (cs : List Char) : Option Int :=
  match cs with
  | '+' :: rest => (parseRadixRun 10 rest).map (fun n => (n : Int))
  | '-' :: rest => (parseRadixRun 10 rest).map (fun n => -(n : Int))
  | rest => (parseRadixRun 10 rest).map (fun n => (n : Int))

/-- The `StrUnsignedDecimalLiteral` grammar of JS `ToNumber`, evaluated
exactly: `digits [. digits?] [exp]`, `. digits [exp]`, with the value
`mantissa * 10^(exponent - fractionLength)`. Returns the value when it is
an integer; a literal with a non-integer value (or `Infinity`) converts to
a number no integer record field can `===`-equal, and is mapped to `none`
like `NaN` — observationally equal for this repository's integer fields. -/
def parseStrDecimal (cs : List Char) : Option Int :=
  if cs = "Infinity".data then none
  else
    let me := splitExponent cs
    let eVal : Option Int :=
      match me.2 with
      | none => some 0
      | some ecs => parseSignedDigits ecs
    match eVal with
    | none => none
    | some e =>
      let idf := splitDot me.1
      let ipart := idf.1
      let fpart := (idf.2).getD []
      if ipart.isEmpty ∧ fpart.isEmpty then none
      else if ipart.all Char.isDigit ∧ fpart.all Char.isDigit then
        let m : Nat := (ipart ++ fpart).foldl (fun a c => a * 10 + (c.toNat - 48)) 0
        let k : Nat := fpart.length
        if (k : Int) ≤ e then some ((m : Int) * (10 : Int) ^ (e - k).toNat)
        else
          let d := (10 : Nat) ^ ((k : Int) - e).toNat
          if m % d = 0 then some ((m / d : Nat) : Int) else none
      else none

/-- String-to-number coercion, `Number(s)` / unary plus on a string,
following the `StringNumericLiteral` grammar: whitespace is trimmed, the
empty string is `0`, unsigned `0x`/`0X` (and `0o`/`0b`) radix literals
convert by radix (so `+"0x10"` is `16` but `+"-0x10"` is `NaN`), and an
optionally signed decimal literal (covering forms like `"1."`, `".5"`,
`"1.5e1"`) converts by `parseStrDecimal`. The model returns the exact
value when it is an integer and `none` otherwise; IEEE-754 rounding of
literals with more than about 15 significant digits is out of scope and
such literals map to `none` here. -/
def jsStringToNumber (s : String) : Option Int :=
  let t := s.trim
  if t = "" then some 0
  else
    match t.data with
    | '0' :: 'x' :: rest => (parseRadixRun 16 rest).map (fun n => (n : Int))
    | '0' :: 'X' :: rest => (parseRadixRun 16 rest).map (fun n => (n : Int))
    | '0' :: 'o' :: rest => (parseRadixRun 8 rest).map (fun n => (n : Int))
    | '0' :: 'O' :: rest => (parseRadixRun 8 rest).map (fun n => (n : Int))
    | '0' :: 'b' :: rest => (parseRadixRun 2 rest).map (fun n => (n : Int))
    | '0' :: 'B' :: rest => (parseRadixRun 2 rest).map (fun n => (n : Int))
    | '-' :: rest => (parseStrDecimal rest).map (fun n => -n)
    | '+' :: rest => parseStrDecimal rest
    | cs => parseStrDecimal cs

/-- JS string conversion `${v}` of a value. An array joins its elements
with commas; a `Date`'s string form is abbreviated (it is never consumed by
the code under verification). -/
def jsToString : JsValue → String
  | .undefined => "undefined"
  | .nan => "NaN"
  | .num n => toString n
  | .str s => s
  | .arr vs => String.intercalate "," vs
  | .date t => "Date:" ++ toString t

/-- JS `ToNumber` (unary plus) on a value: `undefined` and `NaN` give `NaN`
(`none`), an array converts via its comma-joined string form, a `Date` via
its timestamp. -/
def jsToNumber : JsValue → Option Int
  | .undefined => none
  | .nan => none
  | .num n => some n
  | .str s => jsStringToNumber s
  | .arr vs => jsStringToNumber (String.intercalate "," vs)
  | .date t => some t

/-- `hay.includes(needle)`: substring containment on strings. -/
def strContains (hay needle : String) : Bool :=
  (List.range (hay.data.length + 1)).any (fun i => needle.data.isPrefixOf (hay.data.drop i))

/-- JS `ToPrimitive` as used by relational comparison: arrays convert to
their comma-joined string, `Date`s to their timestamp number. -/
def toPrim : JsValue → JsValue
  | .arr vs => .str (String.intercalate "," vs)
  | .date t => .num t
  | v => v

/-- The JS abstract relational comparison `a < b`: if both primitives are
strings they compare lexicographically, otherwise both are coerced to
numbers and any `NaN` makes the comparison false. -/
def jsLtB (a b : JsValue) : Bool :=
  match toPrim a, toPrim b with
  | .str s, .str t => decide (s < t)
  | pa, pb =>
    match jsToNumber pa, jsToNumber pb with
    | some x, some y => decide (x < y)
    | _, _ => false

/-- JS `a > b` is the relational comparison with the operands swapped. -/
def jsGtB (a b : JsValue) : Bool := jsLtB b a

/-- JS strict equality `===` on the values of this repository. `NaN` is
not equal to anything; arrays and `Date` objects compare by reference
identity, and two distinct records always hold distinct objects, so those
cases are `false` (see the module comment). -/
def jsStrictEq : JsValue → JsValue → Bool
  | .undefined, .undefined => true
  | .num a, .num b => decide (a = b)
  | .str a, .str b => decide (a = b)
  | _, _ => false

/-- The sort comparator body shared by `fetchTasks` and `fetchUsers`:
`if (aValue === bValue) return 0; if (order === 'asc') return aValue > bValue ? 1 : -1; return aValue < bValue ? 1 : -1;`. -/
def jsCompare (order : Option String) (av bv : JsValue) : Int :=
  if jsStrictEq av bv then 0
  else if order = some "asc" then (if jsGtB av bv then 1 else -1)
  else (if jsLtB av bv then 1 else -1)

/-- The ascending branch of the comparator:
`aValue > bValue ? 1 : -1` after the equality short-circuit. -/
def jsCompareAsc (av bv : JsValue) : Int :=
  if jsStrictEq av bv then 0 else if jsGtB av bv then 1 else -1

/-- The descending branch of the comparator:
`aValue < bValue ? 1 : -1` after the equality short-circuit. -/
def jsCompareDesc (av bv : JsValue) : Int :=
  if jsStrictEq av bv then 0 else if jsLtB av bv then 1 else -1

/-- Modelled from the claim's words, for comparison with the code: "the
text after the first `'.'`" of a string (`none` when the string contains
no `'.'`). -/
def textAfterFirstDot (s : String) : Option String :=
  match s.data.dropWhile (fun c => c ≠ '.') with
  | [] => none
  | _ :: rest => some (String.mk rest)

/-- Helper for `jsSplitDot`: accumulates the current segment (reversed). -/
def splitDotAux : List Char → List Char → List String
  | [], acc => [String.mk acc.reverse]
  | c :: cs, acc =>
    if c = '.' then String.mk acc.reverse :: splitDotAux cs []
    else splitDotAux cs (c :: acc)

/-- JS `s.split('.')`: the list of `'.'`-separated segments of `s`
(always nonempty; `"".split('.')` is `[""]`). -/
def jsSplitDot (s : String) : List String := splitDotAux s.data []

/-- JS `Array.prototype.slice(start, stop)` with possibly negative or
out-of-range integer endpoints. -/
def jsSlice {α : Type} (l : List α) (start stop : Int) : List α :=
  let len : Int := l.length
  let s := if start < 0 then max (len + start) 0 else min start len
  let e := if stop < 0 then max (len + stop) 0 else min stop len
  (l.drop s.toNat).take (e - s).toNat

/-- One row of the tasks dataset (`Task` in `@services/types/task`):
`status` and `priority` are multi-valued tag fields. -/
structure Task where
  id : Int
  label : String
  title : String
  priority : List String
  status : List String
deriving DecidableEq, Repr

/-- Dynamic field access `task[field]` for an arbitrary field-name string;
an unknown key reads as `undefined`. -/
def getTaskField (key : String) (t : Task) : JsValue :=
  if key = "id" then .num t.id
  else if key = "label" then .str t.label
  else if key = "title" then .str t.title
  else if key = "priority" then .arr t.priority
  else if key = "status" then .arr t.status
  else .undefined

/-- `Filters<Task>`: every query key is optional (`none` models both an
absent key and an explicitly `undefined` one, which the filter loop treats
identically). -/
structure TaskFilters where
  pageIndex : Option Int := none
  pageSize : Option Int := none
  sortBy : Option String := none
  id : Option JsValue := none
  label : Option JsValue := none
  title : Option JsValue := none
  priority : Option JsValue := none
  status : Option JsValue := none
deriving DecidableEq, Repr

/-- The body of the `Object.keys(filters).every` callback of `fetchTasks`,
for one key: `undefined` and `''` pass vacuously; the tag keys `status` /
`priority` require an array filter (match-any on intersection, vacuous on
empty, rejection of any non-array filter); otherwise a string-valued field
does case-insensitive substring containment of the stringified filter, a
number-valued field exact equality against the number-coerced filter, and
any other field type passes. Total by construction: no branch can throw. -/
def taskFilterPass (filter : Option JsValue) (key : String) (t : Task) : Bool :=
  match filter with
  | none => true
  | some f =>
    if f = .undefined then true
    else if f = .str "" then true
    else
      let value := getTaskField key t
      if key = "status" || key = "priority" then
        match f with
        | .arr fa =>
          if fa.isEmpty then true
          else
            match value with
            | .arr va => va.any (fun v => fa.contains v)
            | .str s => fa.contains s
            | _ => false
        | _ => false
      else
        match value with
        | .str s => strContains s.toLower (jsToString f).toLower
        | .num n => decide (jsToNumber f = some n)
        | _ => true

/-- The field keys of `Task`, i.e. the keys over which the destructured
`filters` rest object of `fetchTasks` can range. -/
def taskKeys : List String := ["id", "label", "title", "priority", "status"]

/-- The filter value stored in a `TaskFilters` under a given key. -/
def getTaskFilter (f : TaskFilters) (key : String) : Option JsValue :=
  if key = "id" then f.id
  else if key = "label" then f.label
  else if key = "title" then f.title
  else if key = "priority" then f.priority
  else if key = "status" then f.status
  else none

/-- `Object.keys(filters).every(...)`: a task survives iff it passes the
per-field predicate for every key (keys with an absent filter pass
vacuously, so ranging over all of `taskKeys` is equivalent to ranging over
the present keys). -/
def taskPasses (f : TaskFilters) (t : Task) : Bool :=
  taskKeys.all (fun k => taskFilterPass (getTaskFilter f k) k t)

/-- The comparator of `fetchTasks` for a given `sortBy` string, lowered to
the `≤ 0` ordering predicate used by the stable sort:
`const [field, order] = sortBy.split('.')` and then `jsCompare`. -/
def taskSortLe (sortBy : String) (a b : Task) : Bool :=
  let parts := jsSplitDot sortBy
  let field := parts.headD ""
  let order := parts[1]?
  decide (jsCompare order (getTaskField field a) (getTaskField field b) ≤ 0)

/-- `requestedData.sort(comparator)` of `fetchTasks`, modelled as a stable
merge sort by the comparator. For number- and string-valued sort fields the
comparator is consistent and ECMAScript pins the output to exactly this
order; for the array-valued fields (`priority`/`status`) equal-content
values compare `-1` both ways (reference `===`), the comparator is
inconsistent, and the engine's order is implementation-defined — there the
model fixes one admissible order, so order facts are only claimed below
for the scalar fields. -/
def sortTasks (sortBy : String) (l : List Task) : List Task :=
  l.mergeSort (taskSortLe sortBy)

/-- The data after the `if (sortBy)` step of `fetchTasks` (an empty
`sortBy` string is falsy in JS and skips the sort). -/
def taskRequestedData (f : TaskFilters) (data : List Task) : List Task :=
  match f.sortBy with
  | some s => if s = "" then data else sortTasks s data
  | none => data

/-- `filteredData` of `fetchTasks`: the filtered population before
pagination. -/
def taskFilteredData (f : TaskFilters) (data : List Task) : List Task :=
  (taskRequestedData f data).filter (taskPasses f)

/-- `PaginatedData<T>` of the api layer: one page of results plus the
total row count across all pages. -/
structure PaginatedData (α : Type) where
  result : List α
  rowCount : Nat
deriving Repr

/-- `fetchTasks` (src/api/task.ts) over an explicit record collection:
defaults `pageIndex`/`pageSize` to 0/10, sorts when `sortBy` is truthy,
filters, and slices `[pageIndex*pageSize, (pageIndex+1)*pageSize)`; the
artificial 100 ms delay and promise wrapper of the source are irrelevant
to the returned value and are omitted. -/
def fetchTasks (data : List Task) (f : TaskFilters) : PaginatedData Task :=
  let pageIndex := f.pageIndex.getD 0
  let pageSize := f.pageSize.getD 10
  let filteredData := taskFilteredData f data
  { result := jsSlice filteredData (pageIndex * pageSize) ((pageIndex + 1) * pageSize)
    rowCount := filteredData.length }

/-- One row of the users dataset (`UserTableType` as generated by the
users api file's `makeData`): `role` is a multi-valued tag field and
`birthday` a `Date`, modelled by its millisecond timestamp. -/
structure User where
  id : Int
  name : String
  email : String
  company : String
  role : List String
  birthday : Int
deriving DecidableEq, Repr

/-- Dynamic field access `user[field]`; an unknown key reads as
`undefined`. -/
def getUserField (key : String) (u : User) : JsValue :=
  if key = "id" then .num u.id
  else if key = "name" then .str u.name
  else if key = "email" then .str u.email
  else if key = "company" then .str u.company
  else if key = "role" then .arr u.role
  else if key = "birthday" then .date u.birthday
  else .undefined

/-- `Filters<UserTableType>`: the query keys destructured by `fetchUsers`
(`pageIndex`, `pageSize`, `sortBy`, `selection`, `selectedIds`, `from`,
`to`) plus the per-field filter values of the rest object. `from`/`to` are
modelled by their millisecond timestamps. -/
structure UserFilters where
  pageIndex : Option Int := none
  pageSize : Option Int := none
  sortBy : Option String := none
  selection : Option (List String) := none
  selectedIds : Option (List Int) := none
  «from» : Option Int := none
  «to» : Option Int := none
  id : Option JsValue := none
  name : Option JsValue := none
  email : Option JsValue := none
  company : Option JsValue := none
  role : Option JsValue := none
  birthday : Option JsValue := none
deriving DecidableEq, Repr

/-- The selection-state predicate of `fetchUsers` (run only when
`selection` is present): `isUserSelected` is the truthiness of
`user.id && selectedIds?.includes(user.id)`, so an id of `0` is falsy and
an absent `selectedIds` yields `undefined` (falsy); an empty `selection`
array passes every record. -/
def selectionPass (selection : List String) (selectedIds : Option (List Int)) (u : User) : Bool :=
  let isSelected := selection.contains "SELECTED"
  let isNotSelected := selection.contains "NOT_SELECTED"
  let isUserSelected :=
    decide (u.id ≠ 0) &&
      (match selectedIds with
       | some ids => ids.contains u.id
       | none => false)
  if selection.isEmpty then true
  else if isSelected && isUserSelected then true
  else if isNotSelected && !isUserSelected then true
  else false

/-- The `if (selection)` step of `fetchUsers`: any present selection array
(truthy in JS, even when empty) triggers the filter. -/
def userSelectionStage (f : UserFilters) (data : List User) : List User :=
  match f.selection with
  | some sel => data.filter (selectionPass sel f.selectedIds)
  | none => data

/-- Milliseconds per UTC day. -/
def msPerDay : Int := 86400000

/-- `d.setUTCHours(0, 0, 0, 0)`: normalize a timestamp to midnight UTC of
its day (`Int.emod` is non-negative for a positive modulus, matching the
UTC calendar floor for timestamps on either side of the epoch). -/
def floorToUTCDay (t : Int) : Int := t - t % msPerDay

/-- The date-range head of the `fetchUsers` filter callback: the record's
`birthday` is normalized to midnight UTC; `from` is normalized to midnight
and `to` to end-of-day `23:59:59.999` UTC, the bounds being inclusive. -/
def userDatePass (fromTs toTs : Option Int) (u : User) : Bool :=
  let birthday := floorToUTCDay u.birthday
  match fromTs, toTs with
  | some f, some t =>
    let fromDate := floorToUTCDay f
    let toDate := floorToUTCDay t + (msPerDay - 1)
    !(decide (birthday < fromDate) || decide (birthday > toDate))
  | some f, none => !decide (birthday < floorToUTCDay f)
  | none, some t => !decide (birthday > floorToUTCDay t + (msPerDay - 1))
  | none, none => true

/-- The body of the `Object.keys(filters).every` callback of `fetchUsers`
for one key, mirroring `taskFilterPass` with `role` as the tag key; the
`birthday` field is a `Date` (neither string nor number), so any filter on
it passes vacuously. Total by construction: no branch can throw. -/
def userFilterPass (filter : Option JsValue) (key : String) (u : User) : Bool :=
  match filter with
  | none => true
  | some f =>
    if f = .undefined then true
    else if f = .str "" then true
    else
      let value := getUserField key u
      if key = "role" then
        match f with
        | .arr fa =>
          if fa.isEmpty then true
          else
            match value with
            | .arr va => va.any (fun v => fa.contains v)
            | .str s => fa.contains s
            | _ => false
        | _ => false
      else
        match value with
        | .str s => strContains s.toLower (jsToString f).toLower
        | .num n => decide (jsToNumber f = some n)
        | _ => true

/-- The field keys of `User`, the range of the destructured `filters`
rest object of `fetchUsers`. -/
def userKeys : List String := ["id", "name", "email", "company", "role", "birthday"]

/-- The filter value stored in a `UserFilters` under a given field key. -/
def getUserFilter (f : UserFilters) (key : String) : Option JsValue :=
  if key = "id" then f.id
  else if key = "name" then f.name
  else if key = "email" then f.email
  else if key = "company" then f.company
  else if key = "role" then f.role
  else if key = "birthday" then f.birthday
  else none

/-- The generic per-field part of the `fetchUsers` filter callback
(logical AND over the field keys; absent filters pass vacuously). -/
def userPasses (f : UserFilters) (u : User) : Bool :=
  userKeys.all (fun k => userFilterPass (getUserFilter f k) k u)

/-- The whole filter callback of `fetchUsers`: the date-range check runs
first (early `return false`), then the generic field filters. -/
def userRowPass (f : UserFilters) (u : User) : Bool :=
  userDatePass f.«from» f.«to» u && userPasses f u

/-- The comparator of `fetchUsers` for a given `sortBy`, lowered to the
`≤ 0` ordering predicate of the stable sort. -/
def userSortLe (sortBy : String) (a b : User) : Bool :=
  let parts := jsSplitDot sortBy
  let field := parts.headD ""
  let order := parts[1]?
  decide (jsCompare order (getUserField field a) (getUserField field b) ≤ 0)

/-- `requestedData.sort(comparator)` of `fetchUsers`, modelled as a stable
merge sort by the comparator; as with `sortTasks`, the order is only
pinned down by the ECMAScript spec where the comparator is consistent
(number/string fields), while for `role` arrays and `Date`-valued
`birthday` (reference `===`) the model fixes one admissible,
implementation-defined order. -/
def sortUsers (sortBy : String) (l : List User) : List User :=
  l.mergeSort (userSortLe sortBy)

/-- The `if (sortBy)` step of `fetchUsers` (empty string is falsy). -/
def userSortStage (f : UserFilters) (data : List User) : List User :=
  match f.sortBy with
  | some s => if s = "" then data else sortUsers s data
  | none => data

/-- `filteredData` of `fetchUsers`: selection filter, then sort, then the
date-range and generic field filters — the filtered population before
pagination. -/
def userFilteredData (f : UserFilters) (data : List User) : List User :=
  (userSortStage f (userSelectionStage f data)).filter (userRowPass f)

/-- `fetchUsers` over an explicit record collection: selection filter,
sort, date + field filters, then the pagination slice; defaults 0/10; the
100 ms delay of the source is irrelevant to the returned value. -/
def fetchUsers (data : List User) (f : UserFilters) : PaginatedData User :=
  let pageIndex := f.pageIndex.getD 0
  let pageSize := f.pageSize.getD 10
  let filteredData := userFilteredData f data
  { result := jsSlice filteredData (pageIndex * pageSize) ((pageIndex + 1) * pageSize)
    rowCount := filteredData.length }

/-- A JS object holding URL search parameters: an association list of
key/value pairs in property order (JS object keys are unique; the nodup
hypothesis appears where a proof needs it). -/
abbrev SearchObj : Type := List (String × JsValue)

/-- Key membership `k in o`. -/
def hasKey (o : SearchObj) (k : String) : Bool :=
  (List.any o fun kv => kv.1 = k)

/-- Property read `o[k]`; an absent key reads as `undefined`. -/
def getVal (o : SearchObj) (k : String) : JsValue :=
  match List.find? (fun kv => kv.1 = k) o with
  | some kv => kv.2
  | none => .undefined

/-- `delete o[k]`. -/
def deleteKey (o : SearchObj) (k : String) : SearchObj :=
  List.filter (fun kv => kv.1 ≠ k) o

/-- The object spread `{ ...prev, ...part }`: keys of `prev` keep their
position (overridden keys take `part`'s value), and keys of `part` not in
`prev` are appended in `part`'s order. -/
def spreadObj (prev part : SearchObj) : SearchObj :=
  List.map (fun kv => if hasKey part kv.1 then (kv.1, getVal part kv.1) else kv) prev ++
    List.filter (fun kv => !hasKey prev kv.1) part

/-- The emptiness test of `cleanEmptyParams`:
`value === undefined || value === '' || (typeof value === 'number' && isNaN(value))`. -/
def isEmptyValue : JsValue → Bool
  | .undefined => true
  | .str "" => true
  | .nan => true
  | _ => false

/-- `cleanEmptyParams` (src/services/utils/cleanEmptyParams.ts): drops
every key whose value is `undefined`, `''`, or `NaN`, then drops
`pageIndex` when the input's `pageIndex` is the default `0` and `pageSize`
when it is the default `10` (the default tests read the original `search`
object, as the source does). -/
def cleanEmptyParams (search : SearchObj) : SearchObj :=
  let newSearch := List.filter (fun kv => !isEmptyValue kv.2) search
  let newSearch :=
    if getVal search "pageIndex" = .num 0 then deleteKey newSearch "pageIndex" else newSearch
  if getVal search "pageSize" = .num 10 then deleteKey newSearch "pageSize" else newSearch

/-- The search updater of `setFilters` (useFilters.ts):
`cleanEmptyParams({ ...prev, ...partialFilters })`. -/
def setFiltersMerge (prev partialFilters : SearchObj) : SearchObj :=
  cleanEmptyParams (spreadObj prev partialFilters)

/-- The partial update issued by `handleClearFilters` of the faceted
filter component: `setFilters({ [column.id]: [] })`. -/
def handleClearFilters (columnId : String) : SearchObj :=
  [(columnId, .arr [])]

/-- Uniqueness of the keys of a JS object. -/
def NodupKeys (o : SearchObj) : Prop :=
  (List.map Prod.fst o).Nodup

instance (o : SearchObj) : Decidable (NodupKeys o) := by
  unfold NodupKeys
  infer_instance

/-- The per-entry keep condition of `cleanEmptyParams` relative to the
whole input object: not an empty value, not a `pageIndex` entry when the
object's `pageIndex` is the default `0`, and not a `pageSize` entry when
the object's `pageSize` is the default `10`. `cleanEmptyParams` is proved
below to equal filtering by this condition. -/
def cleanKeep (search : SearchObj) (kv : String × JsValue) : Bool :=
  !isEmptyValue kv.2 &&
    !(decide (kv.1 = "pageIndex") && decide (getVal search "pageIndex" = .num 0)) &&
    !(decide (kv.1 = "pageSize") && decide (getVal search "pageSize" = .num 10))

/-- Sample fixed task records used to instantiate the universal theorems
below at concrete inputs. -/
def sampleTask1 : Task :=
  { id := 1, label := "first label", title := "Write Report", priority := ["high"], status := ["done"] }

/-- Second sample task. -/
def sampleTask2 : Task :=
  { id := 2, label := "second label", title := "write report", priority := ["low"], status := ["todo"] }

/-- Third sample task, sharing its `title` with `sampleTask2`. -/
def sampleTask3 : Task :=
  { id := 3, label := "third label", title := "write report", priority := ["low"], status := ["archived"] }

/-- Sample user record. -/
def sampleUser1 : User :=
  { id := 1, name := "Ann Smith", email := "ann@example.test", company := "Acme",
    role := ["Admin"], birthday := 1580515199999 }

/-- Second sample user (birthday `2020-02-01T00:00:00.000Z`). -/
def sampleUser2 : User :=
  { id := 2, name := "Bob Jones", email := "bob@example.test", company := "Acme",
    role := ["Guest"], birthday := 1580515200000 }

/-! ### Helper lemmas about JS search objects -/

theorem hasKey_nil (k : String) : hasKey [] k = false := rfl

theorem hasKey_cons (k' : String) (v : JsValue) (o : SearchObj) (k : String) :
    hasKey ((k', v) :: o) k = (decide (k' = k) || hasKey o k) := by
  simp [hasKey]

theorem getVal_nil (k : String) : getVal [] k = .undefined := rfl

theorem getVal_cons (k' : String) (v : JsValue) (o : SearchObj) (k : String) :
    getVal ((k', v) :: o) k = if k' = k then v else getVal o k := by
  by_cases h : k' = k <;> simp [getVal, List.find?_cons, h]

theorem hasKey_iff_mem_keys (o : SearchObj) (k : String) :
    hasKey o k = true ↔ k ∈ List.map Prod.fst o := by
  induction o with
  | nil => simp [hasKey_nil]
  | cons kv o ih =>
    obtain ⟨k', v⟩ := kv
    by_cases h : k' = k
    · subst h
      simp [hasKey_cons]
    · simp [hasKey_cons, h, ih, Ne.symm h]

theorem hasKey_eq_true_iff (o : SearchObj) (k : String) :
    hasKey o k = true ↔ ∃ v, (k, v) ∈ o := by
  rw [hasKey_iff_mem_keys]
  constructor
  · intro h
    obtain ⟨⟨k', v⟩, hm, hk⟩ := List.mem_map.mp h
    exact ⟨v, hk ▸ hm⟩
  · rintro ⟨v, hv⟩
    exact List.mem_map.mpr ⟨(k, v), hv, rfl⟩

theorem getVal_of_mem_nodup {o : SearchObj} {k : String} {v : JsValue}
    (hnd : NodupKeys o) (hm : (k, v) ∈ o) : getVal o k = v := by
  induction o with
  | nil => simp at hm
  | cons kv o ih =>
    obtain ⟨k', v'⟩ := kv
    rcases List.mem_cons.mp hm with h | h
    · cases h
      simp [getVal_cons]
    · have hk : k' ≠ k := by
        intro he
        subst he
        exact (List.nodup_cons.mp hnd).1 (List.mem_map.mpr ⟨(k', v), h, rfl⟩)
      rw [getVal_cons, if_neg hk]
      exact ih (List.nodup_cons.mp hnd).2 h

theorem mem_of_hasKey_getVal {o : SearchObj} {k : String}
    (h : hasKey o k = true) : (k, getVal o k) ∈ o := by
  induction o with
  | nil => simp [hasKey_nil] at h
  | cons kv o ih =>
    obtain ⟨k', v'⟩ := kv
    by_cases hk : k' = k
    · subst hk
      simp [getVal_cons]
    · rw [getVal_cons, if_neg hk]
      rw [hasKey_cons, Bool.or_eq_true, decide_eq_true_eq] at h
      rcases h with h | h
      · exact absurd h hk
      · exact List.mem_cons_of_mem _ (ih h)

theorem hasKey_eq_false_iff (o : SearchObj) (k : String) :
    hasKey o k = false ↔ ∀ v, (k, v) ∉ o := by
  rw [← Bool.not_eq_true, hasKey_eq_true_iff]
  push_neg
  simp

/-! ### Claims C2 and C5 -/

/-- C2: for both `fetchTasks` and `fetchUsers`, `rowCount` is the length
of the filtered(-and-sorted) sequence before the pagination slice, the
returned page is the slice `[pageIndex*pageSize, (pageIndex+1)*pageSize)`
of that sequence, `pageIndex`/`pageSize` default to `0`/`10` when absent,
and `rowCount` is identical across all queries that differ only in
`pageIndex`/`pageSize`. -/
theorem pagination_rowCount_slice_defaults_invariance :
    (∀ (data : List Task) (f : TaskFilters),
        (fetchTasks data f).rowCount = (taskFilteredData f data).length ∧
        (fetchTasks data f).result =
          jsSlice (taskFilteredData f data)
            (f.pageIndex.getD 0 * f.pageSize.getD 10)
            ((f.pageIndex.getD 0 + 1) * f.pageSize.getD 10)) ∧
    (∀ (data : List User) (f : UserFilters),
        (fetchUsers data f).rowCount = (userFilteredData f data).length ∧
        (fetchUsers data f).result =
          jsSlice (userFilteredData f data)
            (f.pageIndex.getD 0 * f.pageSize.getD 10)
            ((f.pageIndex.getD 0 + 1) * f.pageSize.getD 10)) ∧
    (∀ (data : List Task) (f : TaskFilters),
        fetchTasks data { f with pageIndex := none } = fetchTasks data { f with pageIndex := some 0 } ∧
        fetchTasks data { f with pageSize := none } = fetchTasks data { f with pageSize := some 10 }) ∧
    (∀ (data : List User) (f : UserFilters),
        fetchUsers data { f with pageIndex := none } = fetchUsers data { f with pageIndex := some 0 } ∧
        fetchUsers data { f with pageSize := none } = fetchUsers data { f with pageSize := some 10 }) ∧
    (∀ (data : List Task) (f : TaskFilters) (pi ps pi' ps' : Option Int),
        (fetchTasks data { f with pageIndex := pi, pageSize := ps }).rowCount =
          (fetchTasks data { f with pageIndex := pi', pageSize := ps' }).rowCount) ∧
    (∀ (data : List User) (f : UserFilters) (pi ps pi' ps' : Option Int),
        (fetchUsers data { f with pageIndex := pi, pageSize := ps }).rowCount =
          (fetchUsers data { f with pageIndex := pi', pageSize := ps' }).rowCount) :=
  ⟨fun _ _ => ⟨rfl, rfl⟩, fun _ _ => ⟨rfl, rfl⟩, fun _ _ => ⟨rfl, rfl⟩, fun _ _ => ⟨rfl, rfl⟩,
    fun _ _ _ _ _ _ => rfl, fun _ _ _ _ _ _ => rfl⟩

/-- C5: with the record's date normalized to midnight UTC, the date-range
filter of `fetchUsers` keeps a record precisely on the inclusive interval
from midnight of `from` to end-of-day (`23:59:59.999` UTC) of `to`, with
one-sided behavior when only one bound is present and no constraint when
both are absent; concretely, for `{from: 2020-01-01, to: 2020-01-31}` a
record dated `2020-01-31T23:59:59.999Z` is kept and one dated
`2020-02-01T00:00:00.000Z` is excluded. -/
theorem date_range_filter_bounds :
    (∀ (f t : Int) (u : User),
        userDatePass (some f) (some t) u = true ↔
          floorToUTCDay f ≤ floorToUTCDay u.birthday ∧
            floorToUTCDay u.birthday ≤ floorToUTCDay t + (msPerDay - 1)) ∧
    (∀ (f : Int) (u : User),
        userDatePass (some f) none u = true ↔ floorToUTCDay f ≤ floorToUTCDay u.birthday) ∧
    (∀ (t : Int) (u : User),
        userDatePass none (some t) u = true ↔
          floorToUTCDay u.birthday ≤ floorToUTCDay t + (msPerDay - 1)) ∧
    (∀ u : User, userDatePass none none u = true) ∧
    userDatePass (some 1577836800000) (some 1580428800000) sampleUser1 = true ∧
    userDatePass (some 1577836800000) (some 1580428800000) sampleUser2 = false := by
  refine ⟨?_, ?_, ?_, ?_, ?_, ?_⟩
  · intro f t u
    simp only [userDatePass, Bool.or_eq_false_iff, Bool.not_eq_true',
      decide_eq_false_iff_not, not_lt]
  · intro f u
    simp only [userDatePass, Bool.not_eq_true', decide_eq_false_iff_not, not_lt]
  · intro t u
    simp only [userDatePass, Bool.not_eq_true', decide_eq_false_iff_not, not_lt]
  · intro u
    rfl
  · decide
  · decide

/-! ### Claims C1, C3, C4 -/

theorem mem_taskRequestedData {f : TaskFilters} {data : List Task} {t : Task} :
    t ∈ taskRequestedData f data ↔ t ∈ data := by
  unfold taskRequestedData
  cases f.sortBy with
  | none => exact Iff.rfl
  | some s => by_cases h : s = "" <;> simp [h, sortTasks]

theorem mem_userSortStage {f : UserFilters} {data : List User} {u : User} :
    u ∈ userSortStage f data ↔ u ∈ data := by
  unfold userSortStage
  cases f.sortBy with
  | none => exact Iff.rfl
  | some s => by_cases h : s = "" <;> simp [h, sortUsers]

/-- C1: a record is in the filtered population iff it independently passes
every per-field filter predicate (logical AND across fields); an absent,
`undefined`, or empty-string filter passes vacuously; a text field passes
by case-insensitive substring containment of the stringified filter; a
numeric field passes by exact equality against the number-coerced filter.
For `fetchUsers` the filter callback also conjoins the date-range check,
stated explicitly in the second conjunct. -/
theorem field_filter_and_composition :
    (∀ (f : TaskFilters) (data : List Task) (t : Task),
        t ∈ taskFilteredData f data ↔
          t ∈ data ∧ ∀ k ∈ taskKeys, taskFilterPass (getTaskFilter f k) k t = true) ∧
    (∀ (f : UserFilters) (l : List User) (u : User),
        u ∈ List.filter (userRowPass f) l ↔
          u ∈ l ∧ userDatePass f.«from» f.«to» u = true ∧
            ∀ k ∈ userKeys, userFilterPass (getUserFilter f k) k u = true) ∧
    (∀ (k : String) (t : Task),
        taskFilterPass none k t = true ∧ taskFilterPass (some .undefined) k t = true ∧
          taskFilterPass (some (.str "")) k t = true) ∧
    (∀ (v : JsValue) (t : Task), v ≠ .undefined → v ≠ .str "" →
        taskFilterPass (some v) "title" t = strContains t.title.toLower ((jsToString v).toLower)) ∧
    (∀ (v : JsValue) (t : Task), v ≠ .undefined → v ≠ .str "" →
        taskFilterPass (some v) "id" t = decide (jsToNumber v = some t.id)) := by
  refine ⟨?_, ?_, ?_, ?_, ?_⟩
  · intro f data t
    simp [taskFilteredData, List.mem_filter, mem_taskRequestedData, taskPasses,
      List.all_eq_true]
  · intro f l u
    simp [List.mem_filter, userRowPass, userPasses, List.all_eq_true, Bool.and_eq_true,
      and_assoc]
  · intro k t
    exact ⟨rfl, by simp [taskFilterPass], by simp [taskFilterPass]⟩
  · intro v t h1 h2
    simp [taskFilterPass, getTaskField, h1, h2]
  · intro v t h1 h2
    simp [taskFilterPass, getTaskField, h1, h2]

/-- C3: for the multi-valued tag fields (`status` / `priority` on tasks,
`role` on users) an array filter passes iff it is empty (vacuous) or the
record's tag set intersects it (match-any), and a present filter that is
neither `undefined`, the empty string, nor an array rejects the record;
the filter functions are total, so no exception can be raised. -/
theorem tag_filter_match_any_and_malformed :
    (∀ (t : Task) (fa : List String),
        taskFilterPass (some (.arr fa)) "status" t = true ↔
          fa = [] ∨ ∃ v ∈ t.status, v ∈ fa) ∧
    (∀ (t : Task) (fa : List String),
        taskFilterPass (some (.arr fa)) "priority" t = true ↔
          fa = [] ∨ ∃ v ∈ t.priority, v ∈ fa) ∧
    (∀ (u : User) (fa : List String),
        userFilterPass (some (.arr fa)) "role" u = true ↔
          fa = [] ∨ ∃ v ∈ u.role, v ∈ fa) ∧
    (∀ (t : Task) (f : JsValue), f ≠ .undefined → f ≠ .str "" → (∀ vs, f ≠ .arr vs) →
        taskFilterPass (some f) "status" t = false ∧
          taskFilterPass (some f) "priority" t = false) ∧
    (∀ (u : User) (f : JsValue), f ≠ .undefined → f ≠ .str "" → (∀ vs, f ≠ .arr vs) →
        userFilterPass (some f) "role" u = false) := by
  refine ⟨?_, ?_, ?_, ?_, ?_⟩
  · intro t fa
    by_cases h : fa = [] <;>
      simp [taskFilterPass, getTaskField, h, List.isEmpty_iff, List.any_eq_true]
  · intro t fa
    by_cases h : fa = [] <;>
      simp [taskFilterPass, getTaskField, h, List.isEmpty_iff, List.any_eq_true]
  · intro u fa
    by_cases h : fa = [] <;>
      simp [userFilterPass, getUserField, h, List.isEmpty_iff, List.any_eq_true]
  · intro t f h1 h2 h3
    rcases f with _ | _ | n | s | vs | d
    · exact absurd rfl h1
    · exact ⟨rfl, rfl⟩
    · exact ⟨rfl, rfl⟩
    · have hs : s ≠ "" := by
        intro he
        exact h2 (by rw [he])
      constructor <;> simp [taskFilterPass, getTaskField, hs]
    · exact absurd rfl (h3 vs)
    · exact ⟨rfl, rfl⟩
  · intro u f h1 h2 h3
    rcases f with _ | _ | n | s | vs | d
    · exact absurd rfl h1
    · rfl
    · rfl
    · have hs : s ≠ "" := by
        intro he
        exact h2 (by rw [he])
      simp [userFilterPass, getUserField, hs]
    · exact absurd rfl (h3 vs)
    · rfl

theorem selectionPass_eq_true_iff {sel : List String} {ids : Option (List Int)} {u : User}
    (hid : u.id ≠ 0) :
    selectionPass sel ids u = true ↔
      sel = [] ∨ (sel.contains "SELECTED" = true ∧ ∃ l, ids = some l ∧ u.id ∈ l) ∨
        (sel.contains "NOT_SELECTED" = true ∧ ¬∃ l, ids = some l ∧ u.id ∈ l) := by
  cases ids with
  | none =>
    by_cases hsel : sel = [] <;>
      by_cases hns : sel.contains "NOT_SELECTED" <;>
        simp [selectionPass, hid, hsel, hns, List.isEmpty_iff]
  | some l =>
    by_cases hsel : sel = [] <;>
      by_cases hs : sel.contains "SELECTED" <;>
        by_cases hns : sel.contains "NOT_SELECTED" <;>
          by_cases hmem : u.id ∈ l <;>
            simp [selectionPass, hid, hsel, hs, hns, hmem, List.isEmpty_iff]

/-- C4: with a selection key present, the selection stage of `fetchUsers`
keeps a record iff the selection array is empty, or it contains
`'SELECTED'` and the record's id is in `selectedIds`, or it contains
`'NOT_SELECTED'` and the record's id is not in `selectedIds` (for the
repository's records, whose ids are nonzero); the predicate reads no
record field other than `id`; and the stage runs before the sort and
before the date/generic field filters. -/
theorem selection_state_filter :
    (∀ (sel : List String) (ids : Option (List Int)) (data : List User) (u : User),
        u.id ≠ 0 →
        (u ∈ List.filter (selectionPass sel ids) data ↔
          u ∈ data ∧
            (sel = [] ∨
              (sel.contains "SELECTED" = true ∧ ∃ l, ids = some l ∧ u.id ∈ l) ∨
              (sel.contains "NOT_SELECTED" = true ∧ ¬∃ l, ids = some l ∧ u.id ∈ l)))) ∧
    (∀ (sel : List String) (ids : Option (List Int)) (u v : User),
        u.id = v.id → selectionPass sel ids u = selectionPass sel ids v) ∧
    (∀ (f : UserFilters) (data : List User),
        userFilteredData f data =
          List.filter (userRowPass f) (userSortStage f (userSelectionStage f data))) ∧
    (∀ (sel : List String) (f : UserFilters) (data : List User),
        f.selection = some sel →
          userSelectionStage f data = List.filter (selectionPass sel f.selectedIds) data) := by
  refine ⟨?_, ?_, ?_, ?_⟩
  · intro sel ids data u hid
    rw [List.mem_filter, selectionPass_eq_true_iff hid]
  · intro sel ids u v h
    unfold selectionPass
    rw [h]
  · intro f data
    rfl
  · intro sel f data h
    unfold userSelectionStage
    rw [h]

/-! ### Spread and cleanEmptyParams lemmas -/

theorem getVal_of_hasKey_false {o : SearchObj} {k : String}
    (h : hasKey o k = false) : getVal o k = .undefined := by
  unfold getVal
  cases hf : List.find? (fun kv => kv.1 = k) o with
  | none => rfl
  | some kv =>
    obtain ⟨k1, v1⟩ := kv
    have hk1 : k1 = k := by simpa using List.find?_some hf
    subst hk1
    rw [hasKey_eq_false_iff] at h
    exact absurd (List.mem_of_find?_eq_some hf) (h v1)

theorem hasKey_append (a b : SearchObj) (k : String) :
    hasKey (a ++ b) k = (hasKey a k || hasKey b k) := by
  simp [hasKey, List.any_append]

theorem getVal_append (a b : SearchObj) (k : String) :
    getVal (a ++ b) k = if hasKey a k then getVal a k else getVal b k := by
  induction a with
  | nil => simp [hasKey_nil, getVal_nil]
  | cons kv o ih =>
    obtain ⟨k', v⟩ := kv
    by_cases hk : k' = k <;> simp [getVal_cons, hasKey_cons, hk, ih]

theorem hasKey_spread_map (prev part : SearchObj) (k : String) :
    hasKey (List.map (fun kv => if hasKey part kv.1 then (kv.1, getVal part kv.1) else kv) prev) k =
      hasKey prev k := by
  induction prev with
  | nil => rfl
  | cons kv o ih =>
    obtain ⟨k', v⟩ := kv
    by_cases h : hasKey part k' <;> simp [hasKey_cons, h, ih]

theorem hasKey_filter_not_prev (prev part : SearchObj) (k : String) :
    hasKey (List.filter (fun kv => !hasKey prev kv.1) part) k =
      (hasKey part k && !hasKey prev k) := by
  induction part with
  | nil => simp [hasKey_nil]
  | cons kv o ih =>
    obtain ⟨k', v⟩ := kv
    by_cases hp : hasKey prev k'
    · rw [List.filter_cons_of_neg (by simp [hp])]
      by_cases hk : k' = k
      · subst hk
        simp [ih, hp]
      · simp [hasKey_cons, hk, ih]
    · rw [List.filter_cons_of_pos (by simp [hp])]
      by_cases hk : k' = k
      · subst hk
        simp [hasKey_cons, hp]
      · simp [hasKey_cons, hk, ih]

theorem hasKey_spreadObj (prev part : SearchObj) (k : String) :
    hasKey (spreadObj prev part) k = (hasKey prev k || hasKey part k) := by
  rw [spreadObj, hasKey_append, hasKey_spread_map, hasKey_filter_not_prev]
  cases h : hasKey prev k <;> simp

theorem getVal_spread_map {prev : SearchObj} (part : SearchObj) {k : String}
    (h : hasKey prev k = true) :
    getVal (List.map (fun kv => if hasKey part kv.1 then (kv.1, getVal part kv.1) else kv) prev) k =
      if hasKey part k then getVal part k else getVal prev k := by
  induction prev with
  | nil => simp [hasKey_nil] at h
  | cons kv o ih =>
    obtain ⟨k', v⟩ := kv
    by_cases hk : k' = k
    · subst hk
      by_cases hp : hasKey part k' <;> simp [getVal_cons, hp]
    · rw [hasKey_cons, Bool.or_eq_true, decide_eq_true_eq] at h
      rcases h with h | h
      · exact absurd h hk
      · by_cases hp : hasKey part k' <;> simp [getVal_cons, hk, hp, ih h]

theorem getVal_filter_of_keytrue {q : String × JsValue → Bool} {part : SearchObj} {k : String}
    (hq : ∀ v, q (k, v) = true) :
    getVal (List.filter q part) k = getVal part k := by
  induction part with
  | nil => rfl
  | cons kv o ih =>
    obtain ⟨k', v⟩ := kv
    by_cases hk : k' = k
    · subst hk
      rw [List.filter_cons_of_pos (hq v), getVal_cons, getVal_cons]
      simp
    · cases hqv : q (k', v) with
      | true => rw [List.filter_cons_of_pos hqv, getVal_cons, getVal_cons, if_neg hk, if_neg hk, ih]
      | false => rw [List.filter_cons_of_neg (by simp [hqv]), getVal_cons, if_neg hk, ih]

theorem getVal_spreadObj (prev part : SearchObj) (k : String) :
    getVal (spreadObj prev part) k = if hasKey part k then getVal part k else getVal prev k := by
  rw [spreadObj, getVal_append, hasKey_spread_map]
  by_cases hp : hasKey prev k
  · rw [if_pos hp, getVal_spread_map part hp]
  · rw [if_neg hp]
    simp only [Bool.not_eq_true] at hp
    rw [getVal_filter_of_keytrue (fun v => by simp [hp])]
    cases hq : hasKey part k
    · rw [getVal_of_hasKey_false hq, getVal_of_hasKey_false hp]
      simp [hq]
    · simp [hq]

theorem nodupKeys_filter (q : String × JsValue → Bool) {o : SearchObj} (h : NodupKeys o) :
    NodupKeys (List.filter q o) :=
  h.sublist ((List.filter_sublist o).map Prod.fst)

theorem keys_spreadObj (prev part : SearchObj) :
    List.map Prod.fst (spreadObj prev part) =
      List.map Prod.fst prev ++
        List.map Prod.fst (List.filter (fun kv => !hasKey prev kv.1) part) := by
  rw [spreadObj, List.map_append]
  congr 1
  rw [List.map_map]
  apply List.map_congr_left
  intro kv _
  by_cases h : hasKey part kv.1 <;> simp [h]

theorem nodupKeys_spreadObj {prev part : SearchObj}
    (h1 : NodupKeys prev) (h2 : NodupKeys part) : NodupKeys (spreadObj prev part) := by
  unfold NodupKeys
  rw [keys_spreadObj]
  refine List.Nodup.append h1 (h2.sublist ((List.filter_sublist part).map Prod.fst)) ?_
  intro a ha1 ha2
  obtain ⟨⟨k1, v1⟩, hm, hfst⟩ := List.mem_map.mp ha2
  obtain ⟨hmem, hflt⟩ := List.mem_filter.mp hm
  rw [Bool.not_eq_true'] at hflt
  subst hfst
  exact absurd ((hasKey_iff_mem_keys prev k1).mpr ha1) (by simp [hflt])

theorem cleanEmptyParams_eq_filter (s : SearchObj) :
    cleanEmptyParams s = List.filter (cleanKeep s) s := by
  simp only [cleanEmptyParams, deleteKey]
  by_cases h1 : getVal s "pageIndex" = JsValue.num 0 <;>
    by_cases h2 : getVal s "pageSize" = JsValue.num 10
  · rw [if_pos h1, if_pos h2, List.filter_filter, List.filter_filter]
    apply List.filter_congr
    intro kv _
    obtain ⟨kk, vv⟩ := kv
    by_cases e1 : kk = "pageIndex" <;> by_cases e2 : kk = "pageSize" <;>
      cases hE : isEmptyValue vv <;> simp [cleanKeep, e1, e2, h1, h2, hE]
  · rw [if_pos h1, if_neg h2, List.filter_filter]
    apply List.filter_congr
    intro kv _
    obtain ⟨kk, vv⟩ := kv
    by_cases e1 : kk = "pageIndex" <;> by_cases e2 : kk = "pageSize" <;>
      cases hE : isEmptyValue vv <;> simp [cleanKeep, e1, e2, h1, h2, hE]
  · rw [if_neg h1, if_pos h2, List.filter_filter]
    apply List.filter_congr
    intro kv _
    obtain ⟨kk, vv⟩ := kv
    by_cases e1 : kk = "pageIndex" <;> by_cases e2 : kk = "pageSize" <;>
      cases hE : isEmptyValue vv <;> simp [cleanKeep, e1, e2, h1, h2, hE]
  · rw [if_neg h1, if_neg h2]
    apply List.filter_congr
    intro kv _
    obtain ⟨kk, vv⟩ := kv
    by_cases e1 : kk = "pageIndex" <;> by_cases e2 : kk = "pageSize" <;>
      cases hE : isEmptyValue vv <;> simp [cleanKeep, e1, e2, h1, h2, hE]

theorem cleanKeep_eq_true_iff (s : SearchObj) (kv : String × JsValue) :
    cleanKeep s kv = true ↔
      isEmptyValue kv.2 = false ∧
        ¬(kv.1 = "pageIndex" ∧ getVal s "pageIndex" = .num 0) ∧
        ¬(kv.1 = "pageSize" ∧ getVal s "pageSize" = .num 10) := by
  simp [cleanKeep, Bool.and_eq_true, Bool.not_eq_true', not_and]
  tauto

theorem hasKey_cleanEmptyParams {s : SearchObj} (h : NodupKeys s) (k : String) :
    hasKey (cleanEmptyParams s) k = true ↔
      hasKey s k = true ∧ cleanKeep s (k, getVal s k) = true := by
  rw [cleanEmptyParams_eq_filter, hasKey_eq_true_iff]
  constructor
  · rintro ⟨v, hv⟩
    obtain ⟨hmem, hkeep⟩ := List.mem_filter.mp hv
    have hgv := getVal_of_mem_nodup h hmem
    exact ⟨(hasKey_eq_true_iff s k).mpr ⟨v, hmem⟩, by rw [hgv]; exact hkeep⟩
  · rintro ⟨hk, hkeep⟩
    exact ⟨getVal s k, List.mem_filter.mpr ⟨mem_of_hasKey_getVal hk, hkeep⟩⟩

theorem nodupKeys_cleanEmptyParams {s : SearchObj} (h : NodupKeys s) :
    NodupKeys (cleanEmptyParams s) := by
  rw [cleanEmptyParams_eq_filter]
  exact nodupKeys_filter _ h

theorem getVal_cleanEmptyParams {s : SearchObj} (h : NodupKeys s) {k : String}
    (hk : hasKey (cleanEmptyParams s) k = true) :
    getVal (cleanEmptyParams s) k = getVal s k := by
  have hm := mem_of_hasKey_getVal hk
  rw [cleanEmptyParams_eq_filter] at hm ⊢
  exact (getVal_of_mem_nodup h (List.mem_filter.mp hm).1).symm

/-! ### Claims C7, C8, C10 -/

theorem val_eq_getVal_of_mem_spread {cur p : SearchObj} (h2 : NodupKeys p)
    {kv : String × JsValue} (hm : kv ∈ spreadObj cur p) (hk : hasKey p kv.1 = true) :
    kv.2 = getVal p kv.1 := by
  rw [spreadObj] at hm
  rcases List.mem_append.mp hm with h | h
  · obtain ⟨kv0, hkv0, heq⟩ := List.mem_map.mp h
    by_cases hp : hasKey p kv0.1
    · rw [if_pos hp] at heq
      rw [← heq]
    · rw [if_neg hp] at heq
      rw [← heq] at hk
      exact absurd hk hp
  · exact (getVal_of_mem_nodup h2 (List.mem_filter.mp h).1).symm

theorem spread_eq_append_of_consistent {prev part : SearchObj}
    (h : ∀ kv ∈ prev, hasKey part kv.1 = true → kv.2 = getVal part kv.1) :
    spreadObj prev part = prev ++ List.filter (fun kv => !hasKey prev kv.1) part := by
  rw [spreadObj]
  congr 1
  have hmap : ∀ kv ∈ prev,
      (if hasKey part kv.1 then (kv.1, getVal part kv.1) else kv) = id kv := by
    intro kv hkv
    by_cases hp : hasKey part kv.1
    · rw [if_pos hp, id, ← h kv hkv hp]
    · rw [if_neg hp, id]
  rw [List.map_congr_left hmap, List.map_id]

/-- C7: `setFilters` merges the update over the current state with object
spread and then removes exactly the keys whose merged value is
`undefined`, the empty string, or `NaN`, plus `pageIndex` when it equals
the default `0` and `pageSize` when it equals the default `10`, leaving
every kept key's value unchanged; consequently merging `{pageSize: 10}`
leaves no `pageSize` key, and merging `{name: ''}` after `{name: 'ann'}`
removes the `name` key entirely. -/
theorem merge_strips_empty_and_defaults :
    (∀ (cur p : SearchObj), NodupKeys cur → NodupKeys p → ∀ k : String,
        (hasKey (setFiltersMerge cur p) k = true ↔
          hasKey (spreadObj cur p) k = true ∧
            isEmptyValue (getVal (spreadObj cur p) k) = false ∧
            ¬(k = "pageIndex" ∧ getVal (spreadObj cur p) "pageIndex" = JsValue.num 0) ∧
            ¬(k = "pageSize" ∧ getVal (spreadObj cur p) "pageSize" = JsValue.num 10)) ∧
        (hasKey (setFiltersMerge cur p) k = true →
          getVal (setFiltersMerge cur p) k = getVal (spreadObj cur p) k)) ∧
    (∀ cur : SearchObj, NodupKeys cur →
        hasKey (setFiltersMerge cur [("pageSize", JsValue.num 10)]) "pageSize" = false) ∧
    (∀ cur : SearchObj, NodupKeys cur →
        hasKey (setFiltersMerge (setFiltersMerge cur [("name", JsValue.str "ann")])
          [("name", JsValue.str "")]) "name" = false) := by
  refine ⟨?_, ?_, ?_⟩
  · intro cur p h1 h2 k
    have hnd := nodupKeys_spreadObj h1 h2
    constructor
    · rw [setFiltersMerge, hasKey_cleanEmptyParams hnd, cleanKeep_eq_true_iff]
    · intro hk
      exact getVal_cleanEmptyParams hnd hk
  · intro cur h
    have hnd := nodupKeys_spreadObj h (show NodupKeys [("pageSize", JsValue.num 10)] by decide)
    rw [Bool.eq_false_iff]
    intro hc
    rw [setFiltersMerge, hasKey_cleanEmptyParams hnd, cleanKeep_eq_true_iff] at hc
    refine hc.2.2.2 ⟨rfl, ?_⟩
    rw [getVal_spreadObj,
      if_pos (show hasKey [("pageSize", JsValue.num 10)] "pageSize" = true by decide)]
    decide
  · intro cur h
    have hndm1 : NodupKeys (setFiltersMerge cur [("name", JsValue.str "ann")]) :=
      nodupKeys_cleanEmptyParams
        (nodupKeys_spreadObj h (show NodupKeys [("name", JsValue.str "ann")] by decide))
    have hnd := nodupKeys_spreadObj hndm1 (show NodupKeys [("name", JsValue.str "")] by decide)
    rw [Bool.eq_false_iff]
    intro hc
    rw [setFiltersMerge, hasKey_cleanEmptyParams hnd, cleanKeep_eq_true_iff] at hc
    have hemp := hc.2.1
    rw [getVal_spreadObj,
      if_pos (show hasKey [("name", JsValue.str "")] "name" = true by decide)] at hemp
    exact absurd hemp (by decide)

/-- C8: merging the same update twice yields the same QueryState
as merging it once:
`cleanEmptyParams({...cleanEmptyParams({...cur, ...p}), ...p})` equals
`cleanEmptyParams({...cur, ...p})` for JS objects (unique keys). -/
theorem merge_idempotent :
    ∀ (cur p : SearchObj), NodupKeys cur → NodupKeys p →
      setFiltersMerge (setFiltersMerge cur p) p = setFiltersMerge cur p := by
  intro cur p h1 h2
  have hndA : NodupKeys (spreadObj cur p) := nodupKeys_spreadObj h1 h2
  have hndm : NodupKeys (setFiltersMerge cur p) := nodupKeys_cleanEmptyParams hndA
  have hm_filter : setFiltersMerge cur p =
      List.filter (cleanKeep (spreadObj cur p)) (spreadObj cur p) := by
    rw [setFiltersMerge, cleanEmptyParams_eq_filter]
  have hmemA : ∀ kv, kv ∈ setFiltersMerge cur p → kv ∈ spreadObj cur p := by
    intro kv hkv
    rw [hm_filter] at hkv
    exact (List.mem_filter.mp hkv).1
  have hkeepA : ∀ kv, kv ∈ setFiltersMerge cur p → cleanKeep (spreadObj cur p) kv = true := by
    intro kv hkv
    rw [hm_filter] at hkv
    exact (List.mem_filter.mp hkv).2
  have hs : spreadObj (setFiltersMerge cur p) p =
      setFiltersMerge cur p ++
        List.filter (fun kv => !hasKey (setFiltersMerge cur p) kv.1) p := by
    apply spread_eq_append_of_consistent
    intro kv hkv hk
    exact val_eq_getVal_of_mem_spread h2 (hmemA kv hkv) hk
  conv_lhs => rw [setFiltersMerge, hs, cleanEmptyParams_eq_filter, List.filter_append]
  have e1 : List.filter
      (cleanKeep (setFiltersMerge cur p ++
        List.filter (fun kv => !hasKey (setFiltersMerge cur p) kv.1) p))
      (setFiltersMerge cur p) = setFiltersMerge cur p := by
    rw [List.filter_eq_self]
    intro kv hkv
    rw [cleanKeep_eq_true_iff]
    have hk := hkeepA kv hkv
    rw [cleanKeep_eq_true_iff] at hk
    have hvm : getVal (setFiltersMerge cur p) kv.1 = kv.2 := getVal_of_mem_nodup hndm hkv
    have hvA : getVal (spreadObj cur p) kv.1 = kv.2 :=
      getVal_of_mem_nodup hndA (hmemA kv hkv)
    refine ⟨hk.1, ?_, ?_⟩
    · rintro ⟨hkey, hval⟩
      have hkm : hasKey (setFiltersMerge cur p) "pageIndex" = true := by
        rw [hasKey_eq_true_iff]
        exact ⟨kv.2, by rw [← hkey]; exact hkv⟩
      rw [getVal_append, if_pos hkm, ← hkey, hvm] at hval
      exact hk.2.1 ⟨hkey, by rw [hkey] at hvA; rw [hvA, hval]⟩
    · rintro ⟨hkey, hval⟩
      have hkm : hasKey (setFiltersMerge cur p) "pageSize" = true := by
        rw [hasKey_eq_true_iff]
        exact ⟨kv.2, by rw [← hkey]; exact hkv⟩
      rw [getVal_append, if_pos hkm, ← hkey, hvm] at hval
      exact hk.2.2 ⟨hkey, by rw [hkey] at hvA; rw [hvA, hval]⟩
  have e2 : List.filter
      (cleanKeep (setFiltersMerge cur p ++
        List.filter (fun kv => !hasKey (setFiltersMerge cur p) kv.1) p))
      (List.filter (fun kv => !hasKey (setFiltersMerge cur p) kv.1) p) = [] := by
    rw [List.filter_eq_nil_iff]
    intro kv hkvE
    have hmemp : kv ∈ p := (List.mem_filter.mp hkvE).1
    have hnkm : hasKey (setFiltersMerge cur p) kv.1 = false := by
      have := (List.mem_filter.mp hkvE).2
      simpa using this
    have hkp : hasKey p kv.1 = true := by
      rw [hasKey_eq_true_iff]
      exact ⟨kv.2, hmemp⟩
    have hkA : hasKey (spreadObj cur p) kv.1 = true := by
      rw [hasKey_spreadObj]
      simp [hkp]
    have hgA : getVal (spreadObj cur p) kv.1 = kv.2 := by
      rw [getVal_spreadObj, if_pos hkp]
      exact getVal_of_mem_nodup h2 hmemp
    have hnc : ¬ cleanKeep (spreadObj cur p) (kv.1, getVal (spreadObj cur p) kv.1) = true := by
      intro hcc
      have hhk : hasKey (setFiltersMerge cur p) kv.1 = true := by
        rw [setFiltersMerge]
        exact (hasKey_cleanEmptyParams hndA kv.1).mpr ⟨hkA, hcc⟩
      rw [hnkm] at hhk
      exact absurd hhk (by decide)
    rw [hgA, cleanKeep_eq_true_iff] at hnc
    push_neg at hnc
    have hndE : NodupKeys (List.filter (fun kv => !hasKey (setFiltersMerge cur p) kv.1) p) :=
      nodupKeys_filter _ h2
    have hvE : getVal (List.filter (fun kv => !hasKey (setFiltersMerge cur p) kv.1) p) kv.1 = kv.2 :=
      getVal_of_mem_nodup hndE hkvE
    rw [cleanKeep_eq_true_iff]
    rintro ⟨hE0, hI, hS⟩
    have hdisj : (kv.1 = "pageIndex" ∧ getVal (spreadObj cur p) "pageIndex" = JsValue.num 0) ∨
        (kv.1 = "pageSize" ∧ getVal (spreadObj cur p) "pageSize" = JsValue.num 10) := by
      by_cases hcase : kv.1 = "pageIndex" ∧ getVal (spreadObj cur p) "pageIndex" = JsValue.num 0
      · exact Or.inl hcase
      · exact Or.inr (hnc hE0 (fun hk hv => hcase ⟨hk, hv⟩))
    rcases hdisj with ⟨hkey, hval⟩ | ⟨hkey, hval⟩
    · apply hI
      refine ⟨hkey, ?_⟩
      have hkv2 : kv.2 = JsValue.num 0 := by
        rw [← hval, ← hkey]
        exact hgA.symm
      have hkmf : hasKey (setFiltersMerge cur p) "pageIndex" = false := by
        rw [← hkey]
        exact hnkm
      rw [getVal_append, if_neg (by simp [hkmf]), ← hkey, hvE, hkv2]
    · apply hS
      refine ⟨hkey, ?_⟩
      have hkv2 : kv.2 = JsValue.num 10 := by
        rw [← hval, ← hkey]
        exact hgA.symm
      have hkmf : hasKey (setFiltersMerge cur p) "pageSize" = false := by
        rw [← hkey]
        exact hnkm
      rw [getVal_append, if_neg (by simp [hkmf]), ← hkey, hvE, hkv2]
  rw [e1, e2, List.append_nil]

/-- C10: `cleanEmptyParams` removes only keys whose values are
`undefined`, the empty string, or `NaN`, plus a default-valued
`pageIndex`/`pageSize`; every other key of the merged state keeps its
value unchanged — in particular any array-valued filter, including the
empty array produced by the faceted filter's clear action, remains
present rather than being stripped like an empty string. -/
theorem clean_removes_only_empty_and_defaults :
    (∀ (s : SearchObj), NodupKeys s → ∀ k : String,
        hasKey s k = true → hasKey (cleanEmptyParams s) k = false →
          isEmptyValue (getVal s k) = true ∨
            (k = "pageIndex" ∧ getVal s "pageIndex" = JsValue.num 0) ∨
            (k = "pageSize" ∧ getVal s "pageSize" = JsValue.num 10)) ∧
    (∀ (s : SearchObj), NodupKeys s → ∀ k : String,
        hasKey (cleanEmptyParams s) k = true →
          getVal (cleanEmptyParams s) k = getVal s k) ∧
    (∀ (s : SearchObj), NodupKeys s → ∀ (k : String) (vs : List String),
        hasKey s k = true → getVal s k = JsValue.arr vs →
          hasKey (cleanEmptyParams s) k = true ∧
            getVal (cleanEmptyParams s) k = JsValue.arr vs) ∧
    (∀ (cur : SearchObj) (columnId : String), NodupKeys cur →
        hasKey (setFiltersMerge cur (handleClearFilters columnId)) columnId = true ∧
          getVal (setFiltersMerge cur (handleClearFilters columnId)) columnId =
            JsValue.arr []) := by
  refine ⟨?_, ?_, ?_, ?_⟩
  · intro s h k hk hkc
    by_contra hcon
    push_neg at hcon
    have hkeep : cleanKeep s (k, getVal s k) = true := by
      rw [cleanKeep_eq_true_iff]
      refine ⟨by simpa using hcon.1, ?_, ?_⟩
      · rintro ⟨hkey, hval⟩
        exact hcon.2.1 hkey hval
      · rintro ⟨hkey, hval⟩
        exact hcon.2.2 hkey hval
    have := (hasKey_cleanEmptyParams h k).mpr ⟨hk, hkeep⟩
    rw [hkc] at this
    exact absurd this (by decide)
  · intro s h k hk
    exact getVal_cleanEmptyParams h hk
  · intro s h k vs hk harr
    have hkeep : cleanKeep s (k, getVal s k) = true := by
      rw [cleanKeep_eq_true_iff]
      refine ⟨?_, ?_, ?_⟩
      · show isEmptyValue (getVal s k) = false
        rw [harr]
        rfl
      · rintro ⟨hkey, hval⟩
        have hkey' : k = "pageIndex" := hkey
        rw [hkey'] at harr
        rw [harr] at hval
        simp at hval
      · rintro ⟨hkey, hval⟩
        have hkey' : k = "pageSize" := hkey
        rw [hkey'] at harr
        rw [harr] at hval
        simp at hval
    have hck : hasKey (cleanEmptyParams s) k = true :=
      (hasKey_cleanEmptyParams h k).mpr ⟨hk, hkeep⟩
    refine ⟨hck, ?_⟩
    rw [getVal_cleanEmptyParams h hck, harr]
  · intro cur columnId h
    have hkpart : hasKey (handleClearFilters columnId) columnId = true := by
      simp [handleClearFilters, hasKey]
    have hgpart : getVal (handleClearFilters columnId) columnId = JsValue.arr [] := by
      rw [handleClearFilters, getVal_cons, if_pos rfl]
    have hndp : NodupKeys (handleClearFilters columnId) := by
      simp [handleClearFilters, NodupKeys]
    have hnd := nodupKeys_spreadObj h hndp
    have hkA : hasKey (spreadObj cur (handleClearFilters columnId)) columnId = true := by
      rw [hasKey_spreadObj]
      simp [hkpart]
    have hgA : getVal (spreadObj cur (handleClearFilters columnId)) columnId = JsValue.arr [] := by
      rw [getVal_spreadObj, if_pos hkpart, hgpart]
    have hkeep : cleanKeep (spreadObj cur (handleClearFilters columnId))
        (columnId, getVal (spreadObj cur (handleClearFilters columnId)) columnId) = true := by
      rw [cleanKeep_eq_true_iff]
      refine ⟨?_, ?_, ?_⟩
      · show isEmptyValue (getVal (spreadObj cur (handleClearFilters columnId)) columnId) = false
        rw [hgA]
        rfl
      · rintro ⟨hkey, hval⟩
        have hkey' : columnId = "pageIndex" := hkey
        subst hkey'
        rw [hgA] at hval
        simp at hval
      · rintro ⟨hkey, hval⟩
        have hkey' : columnId = "pageSize" := hkey
        subst hkey'
        rw [hgA] at hval
        simp at hval
    have hck : hasKey (setFiltersMerge cur (handleClearFilters columnId)) columnId = true := by
      rw [setFiltersMerge]
      exact (hasKey_cleanEmptyParams hnd columnId).mpr ⟨hkA, hkeep⟩
    refine ⟨hck, ?_⟩
    have := getVal_cleanEmptyParams hnd (by rw [setFiltersMerge] at hck; exact hck)
    rw [setFiltersMerge, this, hgA]

/-! ### Sort comparator lemmas (claims C6 and C9) -/

theorem jsCompare_le_iff_template {K : Type} [LinearOrder K] (order : Option String)
    (av bv : JsValue) (x y : K)
    (heq : jsStrictEq av bv = true → x = y)
    (hgt : jsGtB av bv = true ↔ y < x)
    (hlt : jsLtB av bv = true ↔ x < y) :
    jsCompare order av bv ≤ 0 ↔ (if order = some "asc" then x ≤ y else y ≤ x) := by
  unfold jsCompare
  cases hb : jsStrictEq av bv
  · simp only [Bool.false_eq_true, if_false]
    by_cases ho : order = some "asc"
    · rw [if_pos ho, if_pos ho]
      cases hg : jsGtB av bv
      · have hnlt : ¬ y < x := by
          intro hl
          rw [hgt.mpr hl] at hg
          exact Bool.noConfusion hg
        simp only [Bool.false_eq_true, if_false]
        exact iff_of_true (by norm_num) (le_of_not_lt hnlt)
      · rw [if_pos rfl]
        exact iff_of_false (by norm_num) (not_le.mpr (hgt.mp hg))
    · rw [if_neg ho, if_neg ho]
      cases hg : jsLtB av bv
      · have hnlt : ¬ x < y := by
          intro hl
          rw [hlt.mpr hl] at hg
          exact Bool.noConfusion hg
        simp only [Bool.false_eq_true, if_false]
        exact iff_of_true (by norm_num) (le_of_not_lt hnlt)
      · rw [if_pos rfl]
        exact iff_of_false (by norm_num) (not_le.mpr (hlt.mp hg))
  · have hxy := heq hb
    subst hxy
    simp

theorem jsCompare_num_le_iff (order : Option String) (x y : Int) :
    jsCompare order (JsValue.num x) (JsValue.num y) ≤ 0 ↔
      (if order = some "asc" then x ≤ y else y ≤ x) :=
  jsCompare_le_iff_template order _ _ x y
    (fun h => of_decide_eq_true h)
    (by rw [show jsGtB (JsValue.num x) (JsValue.num y) = decide (y < x) from rfl,
          decide_eq_true_eq])
    (by rw [show jsLtB (JsValue.num x) (JsValue.num y) = decide (x < y) from rfl,
          decide_eq_true_eq])

theorem jsCompare_str_le_iff (order : Option String) (s t : String) :
    jsCompare order (JsValue.str s) (JsValue.str t) ≤ 0 ↔
      (if order = some "asc" then s ≤ t else t ≤ s) :=
  jsCompare_le_iff_template order _ _ s t
    (fun h => of_decide_eq_true h)
    (by rw [show jsGtB (JsValue.str s) (JsValue.str t) = decide (t < s) from rfl,
          decide_eq_true_eq])
    (by rw [show jsLtB (JsValue.str s) (JsValue.str t) = decide (s < t) from rfl,
          decide_eq_true_eq])

theorem jsCompare_arr_le_iff (order : Option String) (a b : List String) :
    jsCompare order (JsValue.arr a) (JsValue.arr b) ≤ 0 ↔
      (if order = some "asc" then
        String.intercalate "," a ≤ String.intercalate "," b
      else String.intercalate "," b ≤ String.intercalate "," a) :=
  jsCompare_le_iff_template order _ _ _ _
    (fun h => Bool.noConfusion h)
    (by rw [show jsGtB (JsValue.arr a) (JsValue.arr b) =
          decide (String.intercalate "," b < String.intercalate "," a) from rfl,
          decide_eq_true_eq])
    (by rw [show jsLtB (JsValue.arr a) (JsValue.arr b) =
          decide (String.intercalate "," a < String.intercalate "," b) from rfl,
          decide_eq_true_eq])

theorem jsCompare_date_le_iff (order : Option String) (x y : Int) :
    jsCompare order (JsValue.date x) (JsValue.date y) ≤ 0 ↔
      (if order = some "asc" then x ≤ y else y ≤ x) :=
  jsCompare_le_iff_template order _ _ x y
    (fun h => Bool.noConfusion h)
    (by rw [show jsGtB (JsValue.date x) (JsValue.date y) = decide (y < x) from rfl,
          decide_eq_true_eq])
    (by rw [show jsLtB (JsValue.date x) (JsValue.date y) = decide (x < y) from rfl,
          decide_eq_true_eq])

theorem jsCompare_undef_le_iff (order : Option String) :
    jsCompare order JsValue.undefined JsValue.undefined ≤ 0 ↔
      (if order = some "asc" then (0 : Int) ≤ 0 else (0 : Int) ≤ 0) :=
  jsCompare_le_iff_template order _ _ (0 : Int) 0
    (fun _ => rfl)
    (by rw [show jsGtB JsValue.undefined JsValue.undefined = false from rfl]
        constructor
        · intro h
          exact Bool.noConfusion h
        · intro h
          exact absurd h (lt_irrefl 0))
    (by rw [show jsLtB JsValue.undefined JsValue.undefined = false from rfl]
        constructor
        · intro h
          exact Bool.noConfusion h
        · intro h
          exact absurd h (lt_irrefl 0))

theorem sortLe_trans_total_of_key {α K : Type} [LinearOrder K] (le : α → α → Bool)
    (key : α → K) (P : Prop) [Decidable P]
    (h : ∀ a b, le a b = true ↔ (if P then key a ≤ key b else key b ≤ key a)) :
    (∀ a b c, le a b = true → le b c = true → le a c = true) ∧
    (∀ a b, (le a b || le b a) = true) := by
  constructor
  · intro a b c hab hbc
    rw [h] at hab hbc ⊢
    by_cases hP : P
    · rw [if_pos hP] at hab hbc ⊢
      exact le_trans hab hbc
    · rw [if_neg hP] at hab hbc ⊢
      exact le_trans hbc hab
  · intro a b
    rw [Bool.or_eq_true, h, h]
    by_cases hP : P
    · rw [if_pos hP, if_pos hP]
      exact le_total _ _
    · rw [if_neg hP, if_neg hP]
      exact le_total _ _

theorem taskSortLe_trans_total (sortBy : String) :
    (∀ a b c : Task, taskSortLe sortBy a b = true → taskSortLe sortBy b c = true →
      taskSortLe sortBy a c = true) ∧
    (∀ a b : Task, (taskSortLe sortBy a b || taskSortLe sortBy b a) = true) := by
  have hfield : ∀ t : Task, getTaskField ((jsSplitDot sortBy).headD "") t =
      getTaskField ((jsSplitDot sortBy).headD "") t := fun _ => rfl
  by_cases h1 : (jsSplitDot sortBy).headD "" = "id"
  · refine sortLe_trans_total_of_key _ (fun t : Task => t.id)
      ((jsSplitDot sortBy)[1]? = some "asc") ?_
    intro a b
    rw [show taskSortLe sortBy a b =
        decide (jsCompare ((jsSplitDot sortBy)[1]?)
          (getTaskField ((jsSplitDot sortBy).headD "") a)
          (getTaskField ((jsSplitDot sortBy).headD "") b) ≤ 0) from rfl,
      h1, decide_eq_true_eq]
    exact jsCompare_num_le_iff _ _ _
  · by_cases h2 : (jsSplitDot sortBy).headD "" = "label"
    · refine sortLe_trans_total_of_key _ (fun t : Task => t.label)
        ((jsSplitDot sortBy)[1]? = some "asc") ?_
      intro a b
      rw [show taskSortLe sortBy a b =
          decide (jsCompare ((jsSplitDot sortBy)[1]?)
            (getTaskField ((jsSplitDot sortBy).headD "") a)
            (getTaskField ((jsSplitDot sortBy).headD "") b) ≤ 0) from rfl,
        h2, decide_eq_true_eq]
      rw [show ∀ t : Task, getTaskField "label" t = JsValue.str t.label from fun _ => rfl,
        show ∀ t : Task, getTaskField "label" t = JsValue.str t.label from fun _ => rfl]
      exact jsCompare_str_le_iff _ _ _
    · by_cases h3 : (jsSplitDot sortBy).headD "" = "title"
      · refine sortLe_trans_total_of_key _ (fun t : Task => t.title)
          ((jsSplitDot sortBy)[1]? = some "asc") ?_
        intro a b
        rw [show taskSortLe sortBy a b =
            decide (jsCompare ((jsSplitDot sortBy)[1]?)
              (getTaskField ((jsSplitDot sortBy).headD "") a)
              (getTaskField ((jsSplitDot sortBy).headD "") b) ≤ 0) from rfl,
          h3, decide_eq_true_eq]
        exact jsCompare_str_le_iff _ _ _
      · by_cases h4 : (jsSplitDot sortBy).headD "" = "priority"
        · refine sortLe_trans_total_of_key _
            (fun t : Task => String.intercalate "," t.priority)
            ((jsSplitDot sortBy)[1]? = some "asc") ?_
          intro a b
          rw [show taskSortLe sortBy a b =
              decide (jsCompare ((jsSplitDot sortBy)[1]?)
                (getTaskField ((jsSplitDot sortBy).headD "") a)
                (getTaskField ((jsSplitDot sortBy).headD "") b) ≤ 0) from rfl,
            h4, decide_eq_true_eq]
          exact jsCompare_arr_le_iff _ _ _
        · by_cases h5 : (jsSplitDot sortBy).headD "" = "status"
          · refine sortLe_trans_total_of_key _
              (fun t : Task => String.intercalate "," t.status)
              ((jsSplitDot sortBy)[1]? = some "asc") ?_
            intro a b
            rw [show taskSortLe sortBy a b =
                decide (jsCompare ((jsSplitDot sortBy)[1]?)
                  (getTaskField ((jsSplitDot sortBy).headD "") a)
                  (getTaskField ((jsSplitDot sortBy).headD "") b) ≤ 0) from rfl,
              h5, decide_eq_true_eq]
            exact jsCompare_arr_le_iff _ _ _
          · refine sortLe_trans_total_of_key _ (fun _ : Task => (0 : Int))
              ((jsSplitDot sortBy)[1]? = some "asc") ?_
            intro a b
            rw [show taskSortLe sortBy a b =
                decide (jsCompare ((jsSplitDot sortBy)[1]?)
                  (getTaskField ((jsSplitDot sortBy).headD "") a)
                  (getTaskField ((jsSplitDot sortBy).headD "") b) ≤ 0) from rfl,
              decide_eq_true_eq,
              show ∀ t : Task, getTaskField ((jsSplitDot sortBy).headD "") t = JsValue.undefined from
                fun t => by
                  unfold getTaskField
                  rw [if_neg h1, if_neg h2, if_neg h3, if_neg h4, if_neg h5],
              show ∀ t : Task, getTaskField ((jsSplitDot sortBy).headD "") t = JsValue.undefined from
                fun t => by
                  unfold getTaskField
                  rw [if_neg h1, if_neg h2, if_neg h3, if_neg h4, if_neg h5]]
            exact jsCompare_undef_le_iff _

theorem userSortLe_trans_total (sortBy : String) :
    (∀ a b c : User, userSortLe sortBy a b = true → userSortLe sortBy b c = true →
      userSortLe sortBy a c = true) ∧
    (∀ a b : User, (userSortLe sortBy a b || userSortLe sortBy b a) = true) := by
  by_cases h1 : (jsSplitDot sortBy).headD "" = "id"
  · refine sortLe_trans_total_of_key _ (fun u : User => u.id)
      ((jsSplitDot sortBy)[1]? = some "asc") ?_
    intro a b
    rw [show userSortLe sortBy a b =
        decide (jsCompare ((jsSplitDot sortBy)[1]?)
          (getUserField ((jsSplitDot sortBy).headD "") a)
          (getUserField ((jsSplitDot sortBy).headD "") b) ≤ 0) from rfl,
      h1, decide_eq_true_eq]
    exact jsCompare_num_le_iff _ _ _
  · by_cases h2 : (jsSplitDot sortBy).headD "" = "name"
    · refine sortLe_trans_total_of_key _ (fun u : User => u.name)
        ((jsSplitDot sortBy)[1]? = some "asc") ?_
      intro a b
      rw [show userSortLe sortBy a b =
          decide (jsCompare ((jsSplitDot sortBy)[1]?)
            (getUserField ((jsSplitDot sortBy).headD "") a)
            (getUserField ((jsSplitDot sortBy).headD "") b) ≤ 0) from rfl,
        h2, decide_eq_true_eq]
      exact jsCompare_str_le_iff _ _ _
    · by_cases h3 : (jsSplitDot sortBy).headD "" = "email"
      · refine sortLe_trans_total_of_key _ (fun u : User => u.email)
          ((jsSplitDot sortBy)[1]? = some "asc") ?_
        intro a b
        rw [show userSortLe sortBy a b =
            decide (jsCompare ((jsSplitDot sortBy)[1]?)
              (getUserField ((jsSplitDot sortBy).headD "") a)
              (getUserField ((jsSplitDot sortBy).headD "") b) ≤ 0) from rfl,
          h3, decide_eq_true_eq]
        exact jsCompare_str_le_iff _ _ _
      · by_cases h4 : (jsSplitDot sortBy).headD "" = "company"
        · refine sortLe_trans_total_of_key _ (fun u : User => u.company)
            ((jsSplitDot sortBy)[1]? = some "asc") ?_
          intro a b
          rw [show userSortLe sortBy a b =
              decide (jsCompare ((jsSplitDot sortBy)[1]?)
                (getUserField ((jsSplitDot sortBy).headD "") a)
                (getUserField ((jsSplitDot sortBy).headD "") b) ≤ 0) from rfl,
            h4, decide_eq_true_eq]
          exact jsCompare_str_le_iff _ _ _
        · by_cases h5 : (jsSplitDot sortBy).headD "" = "role"
          · refine sortLe_trans_total_of_key _
              (fun u : User => String.intercalate "," u.role)
              ((jsSplitDot sortBy)[1]? = some "asc") ?_
            intro a b
            rw [show userSortLe sortBy a b =
                decide (jsCompare ((jsSplitDot sortBy)[1]?)
                  (getUserField ((jsSplitDot sortBy).headD "") a)
                  (getUserField ((jsSplitDot sortBy).headD "") b) ≤ 0) from rfl,
              h5, decide_eq_true_eq]
            exact jsCompare_arr_le_iff _ _ _
          · by_cases h6 : (jsSplitDot sortBy).headD "" = "birthday"
            · refine sortLe_trans_total_of_key _ (fun u : User => u.birthday)
                ((jsSplitDot sortBy)[1]? = some "asc") ?_
              intro a b
              rw [show userSortLe sortBy a b =
                  decide (jsCompare ((jsSplitDot sortBy)[1]?)
                    (getUserField ((jsSplitDot sortBy).headD "") a)
                    (getUserField ((jsSplitDot sortBy).headD "") b) ≤ 0) from rfl,
                h6, decide_eq_true_eq]
              exact jsCompare_date_le_iff _ _ _
            · refine sortLe_trans_total_of_key _ (fun _ : User => (0 : Int))
                ((jsSplitDot sortBy)[1]? = some "asc") ?_
              intro a b
              rw [show userSortLe sortBy a b =
                  decide (jsCompare ((jsSplitDot sortBy)[1]?)
                    (getUserField ((jsSplitDot sortBy).headD "") a)
                    (getUserField ((jsSplitDot sortBy).headD "") b) ≤ 0) from rfl,
                decide_eq_true_eq,
                show ∀ u : User, getUserField ((jsSplitDot sortBy).headD "") u = JsValue.undefined from
                  fun u => by
                    unfold getUserField
                    rw [if_neg h1, if_neg h2, if_neg h3, if_neg h4, if_neg h5, if_neg h6],
                show ∀ u : User, getUserField ((jsSplitDot sortBy).headD "") u = JsValue.undefined from
                  fun u => by
                    unfold getUserField
                    rw [if_neg h1, if_neg h2, if_neg h3, if_neg h4, if_neg h5, if_neg h6]]
              exact jsCompare_undef_le_iff _

theorem jsCompare_self_nonpos (order : Option String) (v : JsValue) :
    jsCompare order v v ≤ 0 := by
  rcases v with _ | _ | n | s | vs | t <;>
    · unfold jsCompare jsStrictEq jsGtB jsLtB toPrim jsToNumber
      by_cases ho : order = some "asc" <;>
        simp [ho]

theorem splitDotAux_no_dot (cs : List Char) (acc : List Char) (h : '.' ∉ cs) :
    splitDotAux cs acc = [String.mk (acc.reverse ++ cs)] := by
  induction cs generalizing acc with
  | nil => simp [splitDotAux]
  | cons c cs ih =>
    have hc : c ≠ '.' := fun he => h (he ▸ List.mem_cons_self c cs)
    rw [splitDotAux, if_neg hc, ih _ (fun hm => h (List.mem_cons_of_mem _ hm))]
    congr 1
    simp

theorem jsSplitDot_no_dot {s : String} (h : '.' ∉ s.data) : jsSplitDot s = [s] := by
  rw [jsSplitDot, splitDotAux_no_dot _ _ h]
  rfl

theorem mergeSort_pair {α : Type} (le : α → α → Bool) (a b : α) :
    [a, b].mergeSort le = if le a b then [a, b] else [b, a] := by
  rw [List.mergeSort]
  simp [List.splitInTwo, List.splitAt, List.splitAt.go, List.merge, List.mergeSort]

/-- C6 (amended to number- and string-valued sort fields): there the
comparator returns `0` for equal field values, ascending returns `1` when
`a`'s value exceeds `b`'s and `-1` otherwise, descending inverts this,
and both engines' sorts are stable — a pair of records with equal
sort-field values keeps its input order, with no secondary tiebreak. For
array/`Date`-valued fields `===` is reference identity: equal-content
values compare `-1` in both directions (see the counterexample), the
comparison function is inconsistent, and ECMAScript leaves the resulting
order implementation-defined, so no order property is claimed there. -/
theorem sort_comparator_and_stability :
    (∀ (order : Option String) (x y : Int), x = y →
        jsCompare order (JsValue.num x) (JsValue.num y) = 0) ∧
    (∀ (order : Option String) (s t : String), s = t →
        jsCompare order (JsValue.str s) (JsValue.str t) = 0) ∧
    (∀ x y : Int, x ≠ y →
        jsCompare (some "asc") (JsValue.num x) (JsValue.num y) =
          (if y < x then 1 else -1)) ∧
    (∀ x y : Int, x ≠ y →
        jsCompare (some "desc") (JsValue.num x) (JsValue.num y) =
          (if x < y then 1 else -1)) ∧
    (∀ s t : String, s ≠ t →
        jsCompare (some "asc") (JsValue.str s) (JsValue.str t) =
          (if t < s then 1 else -1)) ∧
    (∀ s t : String, s ≠ t →
        jsCompare (some "desc") (JsValue.str s) (JsValue.str t) =
          (if s < t then 1 else -1)) ∧
    (∀ (sortBy : String) (l : List Task) (a b : Task),
        [a, b].Sublist l →
        getTaskField ((jsSplitDot sortBy).headD "") a =
          getTaskField ((jsSplitDot sortBy).headD "") b →
        ((∃ n, getTaskField ((jsSplitDot sortBy).headD "") a = JsValue.num n) ∨
          (∃ s, getTaskField ((jsSplitDot sortBy).headD "") a = JsValue.str s)) →
        [a, b].Sublist (sortTasks sortBy l)) ∧
    (∀ (sortBy : String) (l : List User) (a b : User),
        [a, b].Sublist l →
        getUserField ((jsSplitDot sortBy).headD "") a =
          getUserField ((jsSplitDot sortBy).headD "") b →
        ((∃ n, getUserField ((jsSplitDot sortBy).headD "") a = JsValue.num n) ∨
          (∃ s, getUserField ((jsSplitDot sortBy).headD "") a = JsValue.str s)) →
        [a, b].Sublist (sortUsers sortBy l)) := by
  refine ⟨?_, ?_, ?_, ?_, ?_, ?_, ?_, ?_⟩
  · intro order x y h
    subst h
    simp [jsCompare, jsStrictEq]
  · intro order s t h
    subst h
    simp [jsCompare, jsStrictEq]
  · intro x y h
    by_cases hl : y < x <;>
      simp [jsCompare, jsStrictEq, jsGtB, jsLtB, toPrim, jsToNumber, h, hl]
  · intro x y h
    by_cases hl : x < y <;>
      simp [jsCompare, jsStrictEq, jsGtB, jsLtB, toPrim, jsToNumber, h, hl]
  · intro s t h
    by_cases hl : t < s <;>
      simp [jsCompare, jsStrictEq, jsGtB, jsLtB, toPrim, jsToNumber, h, hl]
  · intro s t h
    by_cases hl : s < t <;>
      simp [jsCompare, jsStrictEq, jsGtB, jsLtB, toPrim, jsToNumber, h, hl]
  · intro sortBy l a b hsub heq _hsc
    have hab : taskSortLe sortBy a b = true := by
      rw [show taskSortLe sortBy a b =
          decide (jsCompare ((jsSplitDot sortBy)[1]?)
            (getTaskField ((jsSplitDot sortBy).headD "") a)
            (getTaskField ((jsSplitDot sortBy).headD "") b) ≤ 0) from rfl,
        heq]
      exact decide_eq_true (jsCompare_self_nonpos _ _)
    exact List.pair_sublist_mergeSort (taskSortLe_trans_total sortBy).1
      (taskSortLe_trans_total sortBy).2 hab hsub
  · intro sortBy l a b hsub heq _hsc
    have hab : userSortLe sortBy a b = true := by
      rw [show userSortLe sortBy a b =
          decide (jsCompare ((jsSplitDot sortBy)[1]?)
            (getUserField ((jsSplitDot sortBy).headD "") a)
            (getUserField ((jsSplitDot sortBy).headD "") b) ≤ 0) from rfl,
        heq]
      exact decide_eq_true (jsCompare_self_nonpos _ _)
    exact List.pair_sublist_mergeSort (userSortLe_trans_total sortBy).1
      (userSortLe_trans_total sortBy).2 hab hsub

/-- C6 counterexample: for the array-valued sort field `priority`, two
tasks with equal-content priority values make the source comparator
return `-1` in both argument orders — `===` on distinct arrays is
reference identity, never `true` — so the comparator does not return `0`
for equal field values there, and being inconsistent, ECMAScript leaves
the sort order of such pairs implementation-defined. -/
theorem comparator_equal_content_arrays_counterexample :
    sampleTask2.priority = sampleTask3.priority ∧
    jsCompare (some "asc") (getTaskField "priority" sampleTask2)
      (getTaskField "priority" sampleTask3) = -1 ∧
    jsCompare (some "asc") (getTaskField "priority" sampleTask3)
      (getTaskField "priority" sampleTask2) = -1 ∧
    ((-1 : Int) ≠ 0) := by
  have harr : ∀ vs : List String,
      jsCompare (some "asc") (JsValue.arr vs) (JsValue.arr vs) = -1 := by
    intro vs
    unfold jsCompare
    rw [show jsStrictEq (JsValue.arr vs) (JsValue.arr vs) = false from rfl,
      show jsGtB (JsValue.arr vs) (JsValue.arr vs) =
        decide (String.intercalate "," vs < String.intercalate "," vs) from rfl,
      decide_eq_false (lt_irrefl _)]
    simp
  refine ⟨by decide, ?_, ?_, by decide⟩
  · rw [show getTaskField "priority" sampleTask2 = JsValue.arr ["low"] from by decide,
      show getTaskField "priority" sampleTask3 = JsValue.arr ["low"] from by decide]
    exact harr ["low"]
  · rw [show getTaskField "priority" sampleTask2 = JsValue.arr ["low"] from by decide,
      show getTaskField "priority" sampleTask3 = JsValue.arr ["low"] from by decide]
    exact harr ["low"]

/-- C9 counterexample: for `sortBy = "id.asc.x"` the text after the first
`'.'` is `"asc.x"`, which is not `"asc"`, so the claim written that way
predicts a descending sort — but the code takes `split('.')[1] = "asc"`
and sorts ascending: on the input `[task2, task1]` (ids 2, 1) the code
produces the ascending order `[task1, task2]`, while a descending sort of
the same input yields `[task2, task1]`. -/
theorem sort_direction_text_after_dot_counterexample :
    textAfterFirstDot "id.asc.x" = some "asc.x" ∧
    ("asc.x" : String) ≠ "asc" ∧
    sortTasks "id.asc.x" [sampleTask2, sampleTask1] = [sampleTask1, sampleTask2] ∧
    sortTasks "id.desc" [sampleTask2, sampleTask1] = [sampleTask2, sampleTask1] ∧
    ([sampleTask1, sampleTask2] : List Task) ≠ [sampleTask2, sampleTask1] := by
  refine ⟨by decide, by decide, ?_, ?_, by decide⟩
  · rw [sortTasks, mergeSort_pair,
      show taskSortLe "id.asc.x" sampleTask2 sampleTask1 = false from by decide]
    simp
  · rw [sortTasks, mergeSort_pair,
      show taskSortLe "id.desc" sampleTask2 sampleTask1 = true from by decide]
    simp

/-- C9 (amended): the direction component is `split('.')[1]`, the second
`'.'`-separated segment of `sortBy` (absent when `sortBy` contains no
`'.'`, since `split` then yields a single segment); both engines sort
ascending exactly when that component is the exact string `"asc"` and
descending in every other case, including an absent component. -/
theorem sort_direction_asc_only :
    (∀ s : String, '.' ∉ s.data → (jsSplitDot s)[1]? = none) ∧
    (∀ (order : Option String) (av bv : JsValue),
        (order ≠ some "asc" → jsCompare order av bv = jsCompareDesc av bv) ∧
        (order = some "asc" → jsCompare order av bv = jsCompareAsc av bv)) ∧
    (∀ (sortBy : String) (a b : Task), (jsSplitDot sortBy)[1]? ≠ some "asc" →
        taskSortLe sortBy a b =
          decide (jsCompareDesc (getTaskField ((jsSplitDot sortBy).headD "") a)
            (getTaskField ((jsSplitDot sortBy).headD "") b) ≤ 0)) ∧
    (∀ (sortBy : String) (a b : Task), (jsSplitDot sortBy)[1]? = some "asc" →
        taskSortLe sortBy a b =
          decide (jsCompareAsc (getTaskField ((jsSplitDot sortBy).headD "") a)
            (getTaskField ((jsSplitDot sortBy).headD "") b) ≤ 0)) ∧
    (∀ (sortBy : String) (a b : User), (jsSplitDot sortBy)[1]? ≠ some "asc" →
        userSortLe sortBy a b =
          decide (jsCompareDesc (getUserField ((jsSplitDot sortBy).headD "") a)
            (getUserField ((jsSplitDot sortBy).headD "") b) ≤ 0)) ∧
    (∀ (sortBy : String) (a b : User), (jsSplitDot sortBy)[1]? = some "asc" →
        userSortLe sortBy a b =
          decide (jsCompareAsc (getUserField ((jsSplitDot sortBy).headD "") a)
            (getUserField ((jsSplitDot sortBy).headD "") b) ≤ 0)) := by
  have hbranch : ∀ (order : Option String) (av bv : JsValue),
      (order ≠ some "asc" → jsCompare order av bv = jsCompareDesc av bv) ∧
      (order = some "asc" → jsCompare order av bv = jsCompareAsc av bv) := by
    intro order av bv
    constructor
    · intro ho
      by_cases hb : jsStrictEq av bv <;> simp [jsCompare, jsCompareDesc, hb, ho]
    · intro ho
      by_cases hb : jsStrictEq av bv <;> simp [jsCompare, jsCompareAsc, hb, ho]
  refine ⟨?_, hbranch, ?_, ?_, ?_, ?_⟩
  · intro s h
    rw [jsSplitDot_no_dot h]
    rfl
  · intro sortBy a b ho
    rw [show taskSortLe sortBy a b =
        decide (jsCompare ((jsSplitDot sortBy)[1]?)
          (getTaskField ((jsSplitDot sortBy).headD "") a)
          (getTaskField ((jsSplitDot sortBy).headD "") b) ≤ 0) from rfl,
      (hbranch _ _ _).1 ho]
  · intro sortBy a b ho
    rw [show taskSortLe sortBy a b =
        decide (jsCompare ((jsSplitDot sortBy)[1]?)
          (getTaskField ((jsSplitDot sortBy).headD "") a)
          (getTaskField ((jsSplitDot sortBy).headD "") b) ≤ 0) from rfl,
      (hbranch _ _ _).2 ho]
  · intro sortBy a b ho
    rw [show userSortLe sortBy a b =
        decide (jsCompare ((jsSplitDot sortBy)[1]?)
          (getUserField ((jsSplitDot sortBy).headD "") a)
          (getUserField ((jsSplitDot sortBy).headD "") b) ≤ 0) from rfl,
      (hbranch _ _ _).1 ho]
  · intro sortBy a b ho
    rw [show userSortLe sortBy a b =
        decide (jsCompare ((jsSplitDot sortBy)[1]?)
          (getUserField ((jsSplitDot sortBy).headD "") a)
          (getUserField ((jsSplitDot sortBy).headD "") b) ≤ 0) from rfl,
      (hbranch _ _ _).2 ho]

/-! ### Witnesses -/

/-- Witness instantiating the text and numeric filter clauses of C1 at
concrete inputs. -/
theorem field_filter_and_composition_witness :
    taskFilterPass (some (JsValue.str "REPORT")) "title" sampleTask1 =
      strContains (sampleTask1.title.toLower) ((jsToString (JsValue.str "REPORT")).toLower) ∧
    taskFilterPass (some (JsValue.str "1")) "id" sampleTask1 =
      decide (jsToNumber (JsValue.str "1") = some sampleTask1.id) :=
  ⟨field_filter_and_composition.2.2.2.1 _ sampleTask1 (by decide) (by decide),
    field_filter_and_composition.2.2.2.2 _ sampleTask1 (by decide) (by decide)⟩

/-- Witness instantiating C3's malformed-filter rejection at a numeric
filter value, and the match-any clause at a two-tag filter. -/
theorem tag_filter_match_any_and_malformed_witness :
    taskFilterPass (some (JsValue.num 7)) "status" sampleTask1 = false ∧
    taskFilterPass (some (JsValue.num 7)) "priority" sampleTask1 = false ∧
    userFilterPass (some (JsValue.num 7)) "role" sampleUser1 = false ∧
    (taskFilterPass (some (JsValue.arr ["done", "todo"])) "status" sampleTask1 = true ↔
      (["done", "todo"] : List String) = [] ∨ ∃ v ∈ sampleTask1.status, v ∈ ["done", "todo"]) :=
  ⟨(tag_filter_match_any_and_malformed.2.2.2.1 sampleTask1 _ (by decide) (by decide)
      (fun vs h => JsValue.noConfusion h)).1,
    (tag_filter_match_any_and_malformed.2.2.2.1 sampleTask1 _ (by decide) (by decide)
      (fun vs h => JsValue.noConfusion h)).2,
    tag_filter_match_any_and_malformed.2.2.2.2 sampleUser1 _ (by decide) (by decide)
      (fun vs h => JsValue.noConfusion h),
    tag_filter_match_any_and_malformed.1 sampleTask1 ["done", "todo"]⟩

/-- Witness instantiating C4's kept-iff characterization and stage
equation at concrete users and a concrete selection. -/
theorem selection_state_filter_witness :
    (sampleUser1 ∈ List.filter (selectionPass ["SELECTED"] (some [1])) [sampleUser1, sampleUser2] ↔
      sampleUser1 ∈ [sampleUser1, sampleUser2] ∧
        ((["SELECTED"] : List String) = [] ∨
          ((["SELECTED"] : List String).contains "SELECTED" = true ∧
            ∃ l, (some [1] : Option (List Int)) = some l ∧ sampleUser1.id ∈ l) ∨
          ((["SELECTED"] : List String).contains "NOT_SELECTED" = true ∧
            ¬∃ l, (some [1] : Option (List Int)) = some l ∧ sampleUser1.id ∈ l))) ∧
    userSelectionStage { selection := some ["SELECTED"] } [sampleUser1] =
      List.filter (selectionPass ["SELECTED"] (none : Option (List Int))) [sampleUser1] :=
  ⟨selection_state_filter.1 ["SELECTED"] (some [1]) [sampleUser1, sampleUser2] sampleUser1
      (by decide),
    selection_state_filter.2.2.2 ["SELECTED"] { selection := some ["SELECTED"] } [sampleUser1] rfl⟩

/-- Witness instantiating C6's comparator clauses and the stability
property at two tasks sharing their `title`. -/
theorem sort_comparator_and_stability_witness :
    jsCompare none (JsValue.num 3) (JsValue.num 3) = 0 ∧
    jsCompare (some "asc") (JsValue.num 2) (JsValue.num 1) = (if (1 : Int) < 2 then 1 else -1) ∧
    [sampleTask2, sampleTask3].Sublist (sortTasks "title.asc" [sampleTask2, sampleTask3]) :=
  ⟨sort_comparator_and_stability.1 none 3 3 rfl,
    sort_comparator_and_stability.2.2.1 2 1 (by decide),
    sort_comparator_and_stability.2.2.2.2.2.2.1 "title.asc" [sampleTask2, sampleTask3]
      sampleTask2 sampleTask3 (List.Sublist.refl _) (by decide)
      (Or.inr ⟨"write report", by decide⟩)⟩

/-- Witness instantiating C7: a default `pageSize` update leaves no
`pageSize` key, clearing `name` with an empty string removes the key, and
a kept key's value is unchanged by the merge. -/
theorem merge_strips_empty_and_defaults_witness :
    hasKey (setFiltersMerge [("name", JsValue.str "ann")] [("pageSize", JsValue.num 10)])
      "pageSize" = false ∧
    hasKey (setFiltersMerge (setFiltersMerge [] [("name", JsValue.str "ann")])
      [("name", JsValue.str "")]) "name" = false ∧
    getVal (setFiltersMerge [("name", JsValue.str "ann")] [("title", JsValue.str "x")]) "name" =
      getVal (spreadObj [("name", JsValue.str "ann")] [("title", JsValue.str "x")]) "name" :=
  ⟨merge_strips_empty_and_defaults.2.1 [("name", JsValue.str "ann")] (by decide),
    merge_strips_empty_and_defaults.2.2 [] (by decide),
    (merge_strips_empty_and_defaults.1 [("name", JsValue.str "ann")] [("title", JsValue.str "x")]
      (by decide) (by decide) "name").2 (by decide)⟩

/-- Witness instantiating C8's idempotence at a concrete state and a
concrete update touching a default `pageIndex` and an empty `name`. -/
theorem merge_idempotent_witness :
    setFiltersMerge
      (setFiltersMerge [("a", JsValue.num 1), ("pageIndex", JsValue.num 2)]
        [("pageIndex", JsValue.num 0), ("name", JsValue.str "")])
      [("pageIndex", JsValue.num 0), ("name", JsValue.str "")] =
    setFiltersMerge [("a", JsValue.num 1), ("pageIndex", JsValue.num 2)]
      [("pageIndex", JsValue.num 0), ("name", JsValue.str "")] :=
  merge_idempotent _ _ (by decide) (by decide)

/-- Witness instantiating the amended C9 at a dotless `sortBy`, a
descending `sortBy`, and an ascending one. -/
theorem sort_direction_asc_only_witness :
    (jsSplitDot "title")[1]? = none ∧
    taskSortLe "id.desc" sampleTask1 sampleTask2 =
      decide (jsCompareDesc (getTaskField ((jsSplitDot "id.desc").headD "") sampleTask1)
        (getTaskField ((jsSplitDot "id.desc").headD "") sampleTask2) ≤ 0) ∧
    taskSortLe "id.asc" sampleTask1 sampleTask2 =
      decide (jsCompareAsc (getTaskField ((jsSplitDot "id.asc").headD "") sampleTask1)
        (getTaskField ((jsSplitDot "id.asc").headD "") sampleTask2) ≤ 0) :=
  ⟨sort_direction_asc_only.1 "title" (by decide),
    sort_direction_asc_only.2.2.1 "id.desc" sampleTask1 sampleTask2 (by decide),
    sort_direction_asc_only.2.2.2.1 "id.asc" sampleTask1 sampleTask2 (by decide)⟩

/-- Witness instantiating C10: an empty-array filter survives
`cleanEmptyParams` unchanged, and the faceted clear action leaves the
empty array present in the merged state. -/
theorem clean_removes_only_empty_and_defaults_witness :
    getVal (cleanEmptyParams [("status", JsValue.arr []), ("q", JsValue.str "")]) "status" =
      JsValue.arr [] ∧
    hasKey (setFiltersMerge [("status", JsValue.arr ["done"])] (handleClearFilters "status"))
      "status" = true :=
  ⟨(clean_removes_only_empty_and_defaults.2.2.1
      [("status", JsValue.arr []), ("q", JsValue.str "")] (by decide) "status" []
      (by decide) (by decide)).2,
    (clean_removes_only_empty_and_defaults.2.2.2 [("status", JsValue.arr ["done"])] "status"
      (by decide)).1⟩

end TableUseCase
